import Mathlib

/-!
Shallow embedding of the multi-person tracking core of `video_cut`
(`src/tracker.py`, `src/yolo_detector.py` result shape, and
`src/video_processor.py`).

Boxes are integer pixel rectangles `(x1, y1, x2, y2)` — both the
detector (`yolo_detector.py` returns `int` coordinates) and the visual
tracker (`update_with_tracker` applies `int(v)`) produce integers.
Confidences and IoU values are exact rationals standing for the Python
floats (`0.02 = 1/50`, `0.3 = 3/10`).

The detector and the per-track visual tracker are external OpenCV
capabilities consumed through an interface; they are modelled as
explicit function parameters (`Frame` and the tracker handle type `H`
are type parameters).  Python's insertion-ordered `dict` of tracks is
modelled as an association list.
-/

namespace VideoCut

/- Batteries marks the `Rat` arithmetic operations `@[irreducible]`,
which blocks elaborator-side evaluation of closed rational expressions;
restore the default reducibility so concrete runs reduce. -/
set_option allowUnsafeReducibility true in
attribute [semireducible] Rat.add Rat.sub Rat.mul Rat.inv

set_option maxRecDepth 40000

/-- Axis-aligned box `(x1, y1, x2, y2)` in pixel coordinates. -/
structure Box where
  x1 : Int
  y1 : Int
  x2 : Int
  y2 : Int
deriving DecidableEq, Repr

/-- A box is valid (non-degenerate) when `x1 < x2` and `y1 < y2`. -/
def Box.valid (a : Box) : Prop := a.x1 < a.x2 ∧ a.y1 < a.y2

instance (a : Box) : Decidable a.valid := by unfold Box.valid; infer_instance

/-- Two boxes are non-overlapping: they do not share interior area. -/
def Box.separated (a b : Box) : Prop :=
  a.x2 ≤ b.x1 ∨ b.x2 ≤ a.x1 ∨ a.y2 ≤ b.y1 ∨ b.y2 ≤ a.y1

instance (a b : Box) : Decidable (a.separated b) := by
  unfold Box.separated; infer_instance

/-- The `inter_area` subexpression of `calc_iou`:
`max(0, xi2 - xi1) * max(0, yi2 - yi1)`. -/
def interArea (a b : Box) : Int :=
  max 0 (min a.x2 b.x2 - max a.x1 b.x1) * max 0 (min a.y2 b.y2 - max a.y1 b.y1)

/-- The `box1_area` / `box2_area` subexpression of `calc_iou`:
`(x2 - x1) * (y2 - y1)`. -/
def boxArea (a : Box) : Int := (a.x2 - a.x1) * (a.y2 - a.y1)

/-- `calc_iou` from `tracker.py` (lines 40-59): axis-aligned IoU of two
boxes, returning `0` when the union area is `0`.  The Python float
division is exact rational division here. -/
def calc_iou (box1 box2 : Box) : ℚ :=
  let inter_area : ℚ := (interArea box1 box2 : Int)
  let box1_area : ℚ := (boxArea box1 : Int)
  let box2_area : ℚ := (boxArea box2 : Int)
  let union_area := box1_area + box2_area - inter_area
  if union_area = 0 then 0 else inter_area / union_area

lemma calc_iou_eq (a b : Box) :
    calc_iou a b =
      if ((boxArea a : ℚ) + (boxArea b : ℚ) - (interArea a b : ℚ)) = 0 then 0
      else (interArea a b : ℚ) / ((boxArea a : ℚ) + (boxArea b : ℚ) - (interArea a b : ℚ)) :=
  rfl

lemma interArea_comm (a b : Box) : interArea a b = interArea b a := by
  simp only [interArea, max_comm a.x1 b.x1, max_comm a.y1 b.y1,
    min_comm a.x2 b.x2, min_comm a.y2 b.y2]

lemma interArea_nonneg (a b : Box) : 0 ≤ interArea a b :=
  mul_nonneg (le_max_left 0 _) (le_max_left 0 _)

lemma interArea_le_left (a b : Box) (ha : a.valid) : interArea a b ≤ boxArea a := by
  obtain ⟨hx, hy⟩ := ha
  unfold interArea boxArea
  have hx2 : max 0 (min a.x2 b.x2 - max a.x1 b.x1) ≤ a.x2 - a.x1 := by
    rcases max_cases 0 (min a.x2 b.x2 - max a.x1 b.x1) with ⟨h, _⟩ | ⟨h, _⟩ <;> rw [h] <;> omega
  have hy2 : max 0 (min a.y2 b.y2 - max a.y1 b.y1) ≤ a.y2 - a.y1 := by
    rcases max_cases 0 (min a.y2 b.y2 - max a.y1 b.y1) with ⟨h, _⟩ | ⟨h, _⟩ <;> rw [h] <;> omega
  exact mul_le_mul hx2 hy2 (le_max_left 0 _) (by omega)

lemma interArea_le_right (a b : Box) (hb : b.valid) : interArea a b ≤ boxArea b := by
  rw [interArea_comm]; exact interArea_le_left b a hb

lemma boxArea_pos (a : Box) (ha : a.valid) : 0 < boxArea a := by
  obtain ⟨hx, hy⟩ := ha
  exact mul_pos (by omega) (by omega)

lemma interArea_self (a : Box) (ha : a.valid) : interArea a a = boxArea a := by
  obtain ⟨hx, hy⟩ := ha
  unfold interArea boxArea
  rw [min_self, min_self, max_self, max_self,
    max_eq_right (by omega : (0 : Int) ≤ a.x2 - a.x1),
    max_eq_right (by omega : (0 : Int) ≤ a.y2 - a.y1)]

lemma interArea_separated (a b : Box) (h : a.separated b) : interArea a b = 0 := by
  unfold interArea
  rcases h with h | h | h | h
  · have : min a.x2 b.x2 - max a.x1 b.x1 ≤ 0 := by
      have h1 := min_le_left a.x2 b.x2
      have h2 := le_max_right a.x1 b.x1
      omega
    rw [max_eq_left this, zero_mul]
  · have : min a.x2 b.x2 - max a.x1 b.x1 ≤ 0 := by
      have h1 := min_le_right a.x2 b.x2
      have h2 := le_max_left a.x1 b.x1
      omega
    rw [max_eq_left this, zero_mul]
  · have : min a.y2 b.y2 - max a.y1 b.y1 ≤ 0 := by
      have h1 := min_le_left a.y2 b.y2
      have h2 := le_max_right a.y1 b.y1
      omega
    rw [max_eq_left this, mul_zero]
  · have : min a.y2 b.y2 - max a.y1 b.y1 ≤ 0 := by
      have h1 := min_le_right a.y2 b.y2
      have h2 := le_max_left a.y1 b.y1
      omega
    rw [max_eq_left this, mul_zero]

/-- C6: `calc_iou` is symmetric; it is `1` on a valid box against itself;
it is `0` on two non-overlapping valid boxes; it returns `0` (rather
than failing) when the union area is `0`; and on valid boxes its value
lies in `[0, 1]`. -/
theorem C6_calc_iou_properties :
    (∀ a b : Box, calc_iou a b = calc_iou b a) ∧
    (∀ a : Box, a.valid → calc_iou a a = 1) ∧
    (∀ a b : Box, a.valid → b.valid → a.separated b → calc_iou a b = 0) ∧
    (∀ a b : Box, (boxArea a : ℚ) + (boxArea b : ℚ) - (interArea a b : ℚ) = 0 →
      calc_iou a b = 0) ∧
    (∀ a b : Box, a.valid → b.valid → 0 ≤ calc_iou a b ∧ calc_iou a b ≤ 1) := by
  refine ⟨?_, ?_, ?_, ?_, ?_⟩
  · intro a b
    rw [calc_iou_eq, calc_iou_eq, interArea_comm,
      add_comm ((boxArea a : Int) : ℚ) ((boxArea b : Int) : ℚ)]
  · intro a ha
    have hpos : 0 < boxArea a := boxArea_pos a ha
    rw [calc_iou_eq, interArea_self a ha]
    have hne : ((boxArea a : Int) : ℚ) + ((boxArea a : Int) : ℚ) - ((boxArea a : Int) : ℚ) ≠ 0 := by
      have : (0 : ℚ) < (boxArea a : ℚ) := by exact_mod_cast hpos
      intro hc; rw [add_sub_cancel_right] at hc; exact this.ne' hc
    rw [if_neg hne, add_sub_cancel_right, div_self]
    have : (0 : ℚ) < (boxArea a : ℚ) := by exact_mod_cast hpos
    exact this.ne'
  · intro a b ha hb hsep
    have hpos : 0 < boxArea a + boxArea b :=
      add_pos (boxArea_pos a ha) (boxArea_pos b hb)
    rw [calc_iou_eq, interArea_separated a b hsep]
    have hq : (0 : ℚ) < (boxArea a : ℚ) + (boxArea b : ℚ) := by exact_mod_cast hpos
    have hne : ((boxArea a : Int) : ℚ) + ((boxArea b : Int) : ℚ) - ((0 : Int) : ℚ) ≠ 0 := by
      push_cast
      linarith
    rw [if_neg hne]
    norm_num
  · intro a b h
    rw [calc_iou_eq, if_pos h]
  · intro a b ha hb
    have h0 : (0 : Int) ≤ interArea a b := interArea_nonneg a b
    have hA : interArea a b ≤ boxArea a := interArea_le_left a b ha
    have hB : interArea a b ≤ boxArea b := interArea_le_right a b hb
    have hApos : 0 < boxArea a := boxArea_pos a ha
    have hBpos : 0 < boxArea b := boxArea_pos b hb
    have hupos : (0 : ℚ) < (boxArea a : ℚ) + (boxArea b : ℚ) - (interArea a b : ℚ) := by
      have : interArea a b < boxArea a + boxArea b := by omega
      exact_mod_cast (by omega : (0 : Int) < boxArea a + boxArea b - interArea a b)
    rw [calc_iou_eq]
    have hne : ((boxArea a : Int) : ℚ) + ((boxArea b : Int) : ℚ) - ((interArea a b : Int) : ℚ) ≠ 0 :=
      hupos.ne'
    rw [if_neg hne]
    constructor
    · apply div_nonneg _ hupos.le
      exact_mod_cast h0
    · rw [div_le_one hupos]
      have : (interArea a b : ℚ) ≤ (boxArea b : ℚ) := by exact_mod_cast hB
      have h0q : (0 : ℚ) ≤ (interArea a b : ℚ) := by exact_mod_cast h0
      have hAq : (interArea a b : ℚ) ≤ (boxArea a : ℚ) := by exact_mod_cast hA
      linarith

/-- C6 witness: the properties evaluated at concrete boxes. -/
theorem C6_calc_iou_properties_witness :
    calc_iou ⟨0, 0, 4, 4⟩ ⟨2, 2, 6, 6⟩ = calc_iou ⟨2, 2, 6, 6⟩ ⟨0, 0, 4, 4⟩ ∧
    calc_iou ⟨0, 0, 4, 4⟩ ⟨0, 0, 4, 4⟩ = 1 ∧
    calc_iou ⟨0, 0, 4, 4⟩ ⟨4, 0, 8, 4⟩ = 0 ∧
    (0 ≤ calc_iou ⟨0, 0, 4, 4⟩ ⟨2, 2, 6, 6⟩ ∧ calc_iou ⟨0, 0, 4, 4⟩ ⟨2, 2, 6, 6⟩ ≤ 1) :=
  ⟨C6_calc_iou_properties.1 _ _,
   C6_calc_iou_properties.2.1 ⟨0, 0, 4, 4⟩ (by decide),
   C6_calc_iou_properties.2.2.1 ⟨0, 0, 4, 4⟩ ⟨4, 0, 8, 4⟩ (by decide) (by decide) (by decide),
   C6_calc_iou_properties.2.2.2.2 ⟨0, 0, 4, 4⟩ ⟨2, 2, 6, 6⟩ (by decide) (by decide)⟩

/-! ## Track entity (`TrackedPerson`, tracker.py lines 62-108)

The OpenCV visual-tracker capability is modelled by `TrackerCap`:
`init` seeds a handle from a frame and a cv-style box `(x, y, w, h)`
and reports whether the seed region was accepted (the boolean OpenCV
returns); `update` returns a new cv box together with the advanced
handle on success, or `none` on tracking failure. -/

/-- External visual-tracker capability over frame type `Frame` and
handle type `H`. -/
structure TrackerCap (Frame H : Type) where
  init : Frame → Int × Int × Int × Int → Bool × H
  update : H → Frame → Option ((Int × Int × Int × Int) × H)

/-- `TrackedPerson` from `tracker.py`: one tracked subject. -/
structure TrackedPerson (H : Type) where
  id : Nat
  bbox : Box
  confidence : ℚ
  frames_since_detection : Nat
  lost_frames : Nat
  is_active : Bool
  tracker : H
deriving DecidableEq, Repr

variable {Frame H : Type}

/-- `TrackedPerson.__init__` (tracker.py lines 65-78): fields start at
`confidence = 1.0`, `frames_since_detection = 0`, `lost_frames = 0`,
`is_active = True`; a fresh tracker is seeded on the cv box
`(x1, y1, x2 - x1, y2 - y1)`.  The boolean result of
`self.tracker.init(frame, cv_bbox)` is discarded by the source, so the
person is constructed whether or not the capability accepted the seed. -/
def TrackedPerson.create (cap : TrackerCap Frame H) (person_id : Nat) (bbox : Box)
    (frame : Frame) : TrackedPerson H :=
  { id := person_id
    bbox := bbox
    confidence := 1
    frames_since_detection := 0
    lost_frames := 0
    is_active := true
    tracker := (cap.init frame (bbox.x1, bbox.y1, bbox.x2 - bbox.x1, bbox.y2 - bbox.y1)).2 }

/-- `TrackedPerson.update_with_detection` (tracker.py lines 80-92):
replace the box, reset `confidence`, `frames_since_detection` and
`lost_frames`, and re-seed a fresh tracker (init result again
discarded). -/
def TrackedPerson.update_with_detection (cap : TrackerCap Frame H) (p : TrackedPerson H)
    (bbox : Box) (frame : Frame) : TrackedPerson H :=
  { p with
    bbox := bbox
    confidence := 1
    frames_since_detection := 0
    lost_frames := 0
    tracker := (cap.init frame (bbox.x1, bbox.y1, bbox.x2 - bbox.x1, bbox.y2 - bbox.y1)).2 }

/-- `TrackedPerson.update_with_tracker` (tracker.py lines 94-108):
advance by the visual tracker.  On success the cv box `(x, y, w, h)`
becomes `bbox = (x, y, x + w, y + h)`, `frames_since_detection`
increments, `confidence = max(0.3, 1.0 - frames_since_detection * 0.02)`
and the call returns `true`.  On failure `lost_frames` increments and,
past `10`, `is_active` becomes `False`. -/
def TrackedPerson.update_with_tracker (cap : TrackerCap Frame H) (p : TrackedPerson H)
    (frame : Frame) : Bool × TrackedPerson H :=
  match cap.update p.tracker frame with
  | some ((x, y, w, h), h') =>
      (true,
        { p with
          bbox := ⟨x, y, x + w, y + h⟩
          frames_since_detection := p.frames_since_detection + 1
          confidence := max (3 / 10 : ℚ) (1 - (p.frames_since_detection + 1 : ℚ) * (1 / 50))
          tracker := h' })
  | none =>
      let lost := p.lost_frames + 1
      (false,
        { p with
          lost_frames := lost
          is_active := if lost > 10 then false else p.is_active })

/-- Stub capability (frames are `Nat`, handles `Unit`): seeding always
accepted, update always succeeds with the cv box `(0, 0, 5, 5)`. -/
def alwaysCap : TrackerCap Nat Unit :=
  { init := fun _ _ => (true, ())
    update := fun _ _ => some ((0, 0, 5, 5), ()) }

/-- Stub capability whose update fails on frame `0` and succeeds on any
other frame. -/
def flakyCap : TrackerCap Nat Unit :=
  { init := fun _ _ => (true, ())
    update := fun _ f => if f = 0 then none else some ((0, 0, 5, 5), ()) }

/-- Stub capability that rejects every seed region and whose update
always fails. -/
def rejectCap : TrackerCap Nat Unit :=
  { init := fun _ _ => (false, ())
    update := fun _ _ => none }

/-- C1 counterexample: a track that suffered one tracker failure
(`lost_frames = 1`) and then advances successfully does NOT get
`lost_frames` reset to `0` — `update_with_tracker` leaves it at `1` on
the success path, refuting the reset clause of the claim. -/
theorem C1_counterexample :
    ((((TrackedPerson.create flakyCap 1 ⟨0, 0, 5, 5⟩ 1).update_with_tracker
        flakyCap 0).2.update_with_tracker flakyCap 1).1 = true) ∧
    ¬ ((((TrackedPerson.create flakyCap 1 ⟨0, 0, 5, 5⟩ 1).update_with_tracker
        flakyCap 0).2.update_with_tracker flakyCap 1).2.lost_frames = 0) := by
  decide

lemma update_with_tracker_success (cap : TrackerCap Frame H) (p : TrackedPerson H)
    (frame : Frame) (x y w h : Int) (h' : H)
    (hupd : cap.update p.tracker frame = some ((x, y, w, h), h')) :
    (p.update_with_tracker cap frame).1 = true ∧
    (p.update_with_tracker cap frame).2.bbox = ⟨x, y, x + w, y + h⟩ ∧
    (p.update_with_tracker cap frame).2.frames_since_detection
      = p.frames_since_detection + 1 ∧
    (p.update_with_tracker cap frame).2.confidence
      = max (3 / 10 : ℚ) (1 - (p.frames_since_detection + 1 : ℚ) * (1 / 50)) ∧
    (p.update_with_tracker cap frame).2.lost_frames = p.lost_frames ∧
    (p.update_with_tracker cap frame).2.is_active = p.is_active := by
  simp [TrackedPerson.update_with_tracker, hupd]

/-- C1 (amended): a successful advance updates `bbox` from the
capability's cv-box output, increments `frames_since_detection`,
recomputes `confidence = max(0.3, 1.0 - frames_since_detection * 0.02)`
and returns `true`, but leaves `lost_frames` (and `is_active`)
unchanged — `lost_frames` is reset only by a detection match. -/
theorem C1_advance_success (cap : TrackerCap Frame H) (p : TrackedPerson H) (frame : Frame)
    (x y w h : Int) (h' : H)
    (hupd : cap.update p.tracker frame = some ((x, y, w, h), h')) :
    (p.update_with_tracker cap frame).1 = true ∧
    (p.update_with_tracker cap frame).2.bbox = ⟨x, y, x + w, y + h⟩ ∧
    (p.update_with_tracker cap frame).2.frames_since_detection
      = p.frames_since_detection + 1 ∧
    (p.update_with_tracker cap frame).2.confidence
      = max (3 / 10 : ℚ) (1 - (p.frames_since_detection + 1 : ℚ) * (1 / 50)) ∧
    (p.update_with_tracker cap frame).2.lost_frames = p.lost_frames ∧
    (p.update_with_tracker cap frame).2.is_active = p.is_active :=
  update_with_tracker_success cap p frame x y w h h' hupd

/-- C1 witness: the amended success behaviour at a concrete track. -/
theorem C1_advance_success_witness :
    ((TrackedPerson.create alwaysCap 1 ⟨0, 0, 5, 5⟩ 0).update_with_tracker alwaysCap 0).1
      = true ∧
    ((TrackedPerson.create alwaysCap 1 ⟨0, 0, 5, 5⟩ 0).update_with_tracker
        alwaysCap 0).2.bbox = ⟨0, 0, 0 + 5, 0 + 5⟩ ∧
    ((TrackedPerson.create alwaysCap 1 ⟨0, 0, 5, 5⟩ 0).update_with_tracker
        alwaysCap 0).2.frames_since_detection
      = (TrackedPerson.create alwaysCap 1 ⟨0, 0, 5, 5⟩ 0).frames_since_detection + 1 ∧
    ((TrackedPerson.create alwaysCap 1 ⟨0, 0, 5, 5⟩ 0).update_with_tracker
        alwaysCap 0).2.confidence
      = max (3 / 10 : ℚ)
          (1 - ((TrackedPerson.create alwaysCap 1 ⟨0, 0, 5, 5⟩ 0).frames_since_detection
              + 1 : ℚ) * (1 / 50)) ∧
    ((TrackedPerson.create alwaysCap 1 ⟨0, 0, 5, 5⟩ 0).update_with_tracker
        alwaysCap 0).2.lost_frames
      = (TrackedPerson.create alwaysCap 1 ⟨0, 0, 5, 5⟩ 0).lost_frames ∧
    ((TrackedPerson.create alwaysCap 1 ⟨0, 0, 5, 5⟩ 0).update_with_tracker
        alwaysCap 0).2.is_active
      = (TrackedPerson.create alwaysCap 1 ⟨0, 0, 5, 5⟩ 0).is_active :=
  C1_advance_success alwaysCap (TrackedPerson.create alwaysCap 1 ⟨0, 0, 5, 5⟩ 0) 0
    0 0 5 5 () rfl

/-- Advance a person once per frame of the list, exactly as the
tracker-only path does to a track that is never redetected. -/
def advanceRun (cap : TrackerCap Frame H) (p : TrackedPerson H) :
    List Frame → TrackedPerson H
  | [] => p
  | f :: rest => advanceRun cap (p.update_with_tracker cap f).2 rest

lemma advanceRun_success (cap : TrackerCap Frame H)
    (hs : ∀ (h : H) (f : Frame), (cap.update h f).isSome) :
    ∀ (frames : List Frame) (p : TrackedPerson H),
      (advanceRun cap p frames).frames_since_detection
        = p.frames_since_detection + frames.length ∧
      (frames ≠ [] → (advanceRun cap p frames).confidence
        = max (3 / 10 : ℚ)
            (1 - (p.frames_since_detection + frames.length : ℚ) * (1 / 50))) := by
  intro frames
  induction frames with
  | nil => intro p; simp [advanceRun]
  | cons f rest ih =>
    intro p
    obtain ⟨val, hval⟩ := Option.isSome_iff_exists.mp (hs p.tracker f)
    obtain ⟨⟨x, y, w, h⟩, h'⟩ := val
    have hstep := update_with_tracker_success cap p f x y w h h' hval
    simp only [advanceRun]
    constructor
    · rw [(ih _).1, hstep.2.2.1, List.length_cons]
      omega
    · intro _
      cases rest with
      | nil =>
        simp only [advanceRun, List.length_cons, List.length_nil]
        rw [hstep.2.2.2.1]
        norm_num
      | cons r rs =>
        rw [(ih _).2 (by simp), hstep.2.2.1]
        congr 1
        push_cast [List.length_cons]
        ring

/-- C5: a Track created by `create` and then advanced `n` times by the
visual tracker, every advance succeeding and no detector confirmation
in between, has `confidence = max(0.3, 1.0 - 0.02 * n)` exactly. -/
theorem C5_confidence_decay (cap : TrackerCap Frame H)
    (hs : ∀ (h : H) (f : Frame), (cap.update h f).isSome)
    (frames : List Frame) (person_id : Nat) (bbox : Box) (frame0 : Frame) :
    (advanceRun cap (TrackedPerson.create cap person_id bbox frame0) frames).confidence
      = max (3 / 10 : ℚ) (1 - (frames.length : ℚ) * (1 / 50)) := by
  cases frames with
  | nil =>
    show (TrackedPerson.create cap person_id bbox frame0).confidence = _
    show (1 : ℚ) = _
    norm_num [max_def]
  | cons f rest =>
    have hconf :=
      (advanceRun_success cap hs (f :: rest)
        (TrackedPerson.create cap person_id bbox frame0)).2 (by simp)
    rw [hconf]
    show max (3 / 10 : ℚ) (1 - ((0 : Nat) + (f :: rest).length : ℚ) * (1 / 50)) = _
    congr 1
    push_cast
    ring

/-- C5 witness: two successful tracker-only advances at a concrete
track give `confidence = max(0.3, 1 - 0.02 * 2)`. -/
theorem C5_confidence_decay_witness :
    (advanceRun alwaysCap (TrackedPerson.create alwaysCap 1 ⟨0, 0, 5, 5⟩ 0)
        [1, 2]).confidence
      = max (3 / 10 : ℚ) (1 - (([1, 2] : List Nat).length : ℚ) * (1 / 50)) :=
  C5_confidence_decay alwaysCap (fun _ _ => rfl) [1, 2] 1 ⟨0, 0, 5, 5⟩ 0

/-! ## Multi-person tracker (`MultiPersonTracker`, tracker.py lines 111-257)

Python's `dict` preserves insertion order, so `tracked_persons` is an
association list; its keys are unique (fresh ids strictly increase).
The detector capability is a function `Frame → List Detection`. -/

/-- A detection `(x1, y1, x2, y2, confidence)` as produced by
`YOLODetector.detect`: `det[:4]` is the box, `det[4]` the confidence. -/
abbrev Detection : Type := Box × ℚ

/-- A per-frame result entry `(person_id, bbox, confidence, method)`
with `method` one of `"yolo"`, `"tracker"`. -/
abbrev ResultEntry : Type := Nat × Box × ℚ × String

/-- `MultiPersonTracker` state: the ordered dict of tracked persons,
`next_id`, `frame_count`, plus the configuration set in `__init__`
(`redetect_interval`, `iou_threshold`).  `created_ids` is a ghost field
recording every id ever allocated for a new track since the last reset,
in allocation order; nothing reads it. -/
structure MPTState (H : Type) where
  tracked_persons : List (Nat × TrackedPerson H)
  next_id : Nat
  frame_count : Nat
  redetect_interval : Nat
  iou_threshold : ℚ
  created_ids : List Nat
deriving DecidableEq, Repr

/-- The state built by `MultiPersonTracker.__init__` (defaults:
`redetect_interval = 30`, `iou_threshold = 0.3`). -/
def MPTState.init (redetect_interval : Nat) (iou_threshold : ℚ) : MPTState H :=
  { tracked_persons := []
    next_id := 1
    frame_count := 0
    redetect_interval := redetect_interval
    iou_threshold := iou_threshold
    created_ids := [] }

/-- `MultiPersonTracker.reset` (lines 253-257): clear the dict, reset
`next_id` to 1 and `frame_count` to 0 (the ghost log starts afresh). -/
def MPTState.reset (s : MPTState H) : MPTState H :=
  { s with tracked_persons := [], next_id := 1, frame_count := 0, created_ids := [] }

/-- In-place overwrite of the dict value at key `tid` (keys are unique,
insertion order is preserved). -/
def setPerson (persons : List (Nat × TrackedPerson H)) (tid : Nat)
    (p : TrackedPerson H) : List (Nat × TrackedPerson H) :=
  persons.map fun e => if e.1 = tid then (tid, p) else e

/-- The inner matching scan of `_process_with_yolo` (lines 178-187):
walk the dict in order, skip already-matched track ids, and retain the
id of the track with the highest IoU, accepted only when that IoU
exceeds both the running best (initially `0`) and `iou_threshold`. -/
def bestMatch (iou_threshold : ℚ) (det_bbox : Box) (matched_track_ids : List Nat)
    (persons : List (Nat × TrackedPerson H)) : Option Nat :=
  (persons.foldl
    (fun best e =>
      if matched_track_ids.contains e.1 then best
      else
        let iou := calc_iou det_bbox e.2.bbox
        if iou > best.1 ∧ iou > iou_threshold then (iou, some e.1) else best)
    ((0 : ℚ), (none : Option Nat))).2

/-- Accumulator of the association phase of `_process_with_yolo`. -/
structure MatchAcc (H : Type) where
  persons : List (Nat × TrackedPerson H)
  matched_track_ids : List Nat
  matched_det_indices : List Nat
  results : List ResultEntry

/-- One iteration of the association loop (lines 176-201): find the
best unmatched track for the detection `d = (det_idx, det)`; on a
match, update that track with the detection, record both sides as
matched and emit a `"yolo"` result entry. -/
def matchStep (cap : TrackerCap Frame H) (iou_threshold : ℚ) (frame : Frame)
    (acc : MatchAcc H) (d : Nat × Detection) : MatchAcc H :=
  let det_bbox := d.2.1
  match bestMatch iou_threshold det_bbox acc.matched_track_ids acc.persons with
  | some best_track_id =>
      match acc.persons.lookup best_track_id with
      | some person =>
          { persons := setPerson acc.persons best_track_id
              (person.update_with_detection cap det_bbox frame)
            matched_track_ids := acc.matched_track_ids ++ [best_track_id]
            matched_det_indices := acc.matched_det_indices ++ [d.1]
            results := acc.results ++ [(best_track_id, det_bbox, d.2.2, "yolo")] }
      | none => acc  -- unreachable: `bestMatch` only returns keys present in the dict
  | none => acc

/-- Accumulator of the creation phase of `_process_with_yolo`. -/
structure CreateAcc (H : Type) where
  persons : List (Nat × TrackedPerson H)
  next_id : Nat
  created_ids : List Nat
  results : List ResultEntry

/-- One iteration of the creation loop (lines 203-213): each detection
index not matched earlier allocates `new_id = next_id` (then
`next_id += 1`), registers a fresh `TrackedPerson` and emits a
`"yolo"` result entry.  Registration is unconditional: the tracker
seed's accept/reject status is not consulted. -/
def createStep (cap : TrackerCap Frame H) (frame : Frame)
    (matched_det_indices : List Nat) (c : CreateAcc H) (d : Nat × Detection) :
    CreateAcc H :=
  if matched_det_indices.contains d.1 then c
  else
    let new_id := c.next_id
    { persons := c.persons ++ [(new_id, TrackedPerson.create cap new_id d.2.1 frame)]
      next_id := new_id + 1
      created_ids := c.created_ids ++ [new_id]
      results := c.results ++ [(new_id, d.2.1, d.2.2, "yolo")] }

/-- One iteration of the final loop of `_process_with_yolo`
(lines 215-224): every track not matched this frame (including the
just-created ones) is advanced by its visual tracker; a successful
advance emits a `"tracker"` result entry. -/
def advanceUnmatchedStep (cap : TrackerCap Frame H) (frame : Frame)
    (matched_track_ids : List Nat)
    (a : List (Nat × TrackedPerson H) × List ResultEntry)
    (e : Nat × TrackedPerson H) :
    List (Nat × TrackedPerson H) × List ResultEntry :=
  if matched_track_ids.contains e.1 then (a.1 ++ [e], a.2)
  else
    let r := e.2.update_with_tracker cap frame
    (a.1 ++ [(e.1, r.2)],
     if r.1 then a.2 ++ [(e.1, r.2.bbox, r.2.confidence, "tracker")] else a.2)

/-- One iteration of `_process_with_trackers` (lines 228-242): advance
every *active* track; a successful advance emits a `"tracker"` entry. -/
def trackerStep (cap : TrackerCap Frame H) (frame : Frame)
    (a : List (Nat × TrackedPerson H) × List ResultEntry)
    (e : Nat × TrackedPerson H) :
    List (Nat × TrackedPerson H) × List ResultEntry :=
  if e.2.is_active then
    let r := e.2.update_with_tracker cap frame
    (a.1 ++ [(e.1, r.2)],
     if r.1 then a.2 ++ [(e.1, r.2.bbox, r.2.confidence, "tracker")] else a.2)
  else (a.1 ++ [e], a.2)

/-- `MultiPersonTracker._process_with_trackers` (lines 228-242). -/
def processWithTrackers (cap : TrackerCap Frame H) (frame : Frame) (s : MPTState H) :
    MPTState H × List ResultEntry :=
  let r := s.tracked_persons.foldl (trackerStep cap frame) ([], [])
  ({ s with tracked_persons := r.1 }, r.2)

/-- `MultiPersonTracker._process_with_yolo` (lines 161-226): call the
detector; on an empty detection list fall back to
`_process_with_trackers`; otherwise run the association phase (only
when the dict is non-empty, line 175), the creation phase, and the
advance-unmatched phase, in that order, accumulating one result list. -/
def processWithYolo (cap : TrackerCap Frame H) (detector : Frame → List Detection)
    (frame : Frame) (s : MPTState H) : MPTState H × List ResultEntry :=
  let detections := detector frame
  if detections.isEmpty then
    processWithTrackers cap frame s
  else
    let acc0 : MatchAcc H := ⟨s.tracked_persons, [], [], []⟩
    let acc :=
      if s.tracked_persons.isEmpty then acc0
      else detections.enum.foldl (matchStep cap s.iou_threshold frame) acc0
    let c := detections.enum.foldl (createStep cap frame acc.matched_det_indices)
      ⟨acc.persons, s.next_id, s.created_ids, acc.results⟩
    let r := c.persons.foldl (advanceUnmatchedStep cap frame acc.matched_track_ids)
      ([], c.results)
    ({ s with tracked_persons := r.1, next_id := c.next_id, created_ids := c.created_ids },
     r.2)

/-- `MultiPersonTracker._cleanup_inactive` (lines 244-251): collect the
ids whose person is inactive, then delete those keys from the dict. -/
def cleanupInactive (s : MPTState H) : MPTState H :=
  let inactive_ids := (s.tracked_persons.filter fun e => !e.2.is_active).map (·.1)
  { s with tracked_persons :=
      s.tracked_persons.filter fun e => !inactive_ids.contains e.1 }

/-- The `need_yolo` condition of `process_frame` (lines 145-149),
evaluated on the state whose frame counter was already incremented. -/
def need_yolo (s : MPTState H) : Bool :=
  s.frame_count == 1 || s.frame_count % s.redetect_interval == 0
    || s.tracked_persons.isEmpty

/-- `MultiPersonTracker.process_frame` (lines 133-159): increment the
frame counter, take the detector path iff `need_yolo`, then always run
the cleanup. -/
def processFrame (cap : TrackerCap Frame H) (detector : Frame → List Detection)
    (frame : Frame) (s : MPTState H) : MPTState H × List ResultEntry :=
  let s1 := { s with frame_count := s.frame_count + 1 }
  let r :=
    if need_yolo s1 then processWithYolo cap detector frame s1
    else processWithTrackers cap frame s1
  (cleanupInactive r.1, r.2)

/-- Process a list of frames in order, returning the final state. -/
def runFrames (cap : TrackerCap Frame H) (detector : Frame → List Detection) :
    List Frame → MPTState H → MPTState H
  | [], s => s
  | f :: rest, s => runFrames cap detector rest (processFrame cap detector f s).1

/-- For each frame of a run, whether `process_frame` takes the detector
path on that frame (the value of `need_yolo` after the counter
increment, which is exactly the branch condition of `processFrame`). -/
def detectorFlags (cap : TrackerCap Frame H) (detector : Frame → List Detection) :
    List Frame → MPTState H → List Bool
  | [], _ => []
  | f :: rest, s =>
      need_yolo { s with frame_count := s.frame_count + 1 }
        :: detectorFlags cap detector rest (processFrame cap detector f s).1

lemma need_yolo_iff (s : MPTState H) :
    need_yolo s = true ↔
      (s.frame_count = 1 ∨ s.frame_count % s.redetect_interval = 0 ∨
        s.tracked_persons = []) := by
  simp [need_yolo, List.isEmpty_iff, or_assoc]

/-- Detector stub for the cadence scenario: one detection at the fixed
box, confidence `0.9`, on every frame. -/
def stubDetector : Nat → List Detection := fun _ => [(⟨0, 0, 10, 10⟩, 9 / 10)]

/-- Visual-tracker stub that always succeeds at the cv box
`(0, 0, 10, 10)` — the sole track therefore always matches the stub
detection with IoU `1 > 0.3`. -/
def steadyCap : TrackerCap Nat Unit :=
  { init := fun _ _ => (true, ())
    update := fun _ _ => some ((0, 0, 10, 10), ()) }

/-- A concrete track used to instantiate hypotheses at witnesses. -/
def dummyPerson : TrackedPerson Unit :=
  { id := 1
    bbox := ⟨0, 0, 10, 10⟩
    confidence := 1
    frames_since_detection := 0
    lost_frames := 0
    is_active := true
    tracker := () }

/-- C3: `process_frame` takes the detector path iff the incremented
frame counter is `1` (first frame since start or reset), or divisible by
`redetect_interval`, or the live track set is empty — and only then is
the Detector capability invoked; with `redetect_interval = 30` and a
detector stub always returning one detection matching the sole track
above threshold, a 90-frame run takes the detector path exactly on
frames 1, 30, 60, 90 and the tracker-only path on all others. -/
theorem C3_redetect_cadence :
    (∀ (Frame H : Type) (cap : TrackerCap Frame H) (detector : Frame → List Detection)
        (frame : Frame) (s : MPTState H),
      (s.frame_count + 1 = 1 ∨ (s.frame_count + 1) % s.redetect_interval = 0 ∨
          s.tracked_persons = []) →
        processFrame cap detector frame s =
          (cleanupInactive (processWithYolo cap detector frame
              { s with frame_count := s.frame_count + 1 }).1,
           (processWithYolo cap detector frame
              { s with frame_count := s.frame_count + 1 }).2)) ∧
    (∀ (Frame H : Type) (cap : TrackerCap Frame H) (detector : Frame → List Detection)
        (frame : Frame) (s : MPTState H),
      ¬ (s.frame_count + 1 = 1 ∨ (s.frame_count + 1) % s.redetect_interval = 0 ∨
          s.tracked_persons = []) →
        processFrame cap detector frame s =
          (cleanupInactive (processWithTrackers cap frame
              { s with frame_count := s.frame_count + 1 }).1,
           (processWithTrackers cap frame
              { s with frame_count := s.frame_count + 1 }).2)) ∧
    detectorFlags steadyCap stubDetector (List.range 90) (MPTState.init 30 (3 / 10))
      = (List.range 90).map (fun i => decide (i + 1 = 1 ∨ (i + 1) % 30 = 0)) ∧
    (detectorFlags steadyCap stubDetector (List.range 90)
        (MPTState.init 30 (3 / 10))).enum.filterMap
      (fun p => if p.2 then some (p.1 + 1) else none) = [1, 30, 60, 90] := by
  refine ⟨?_, ?_, ?_, ?_⟩
  · intro Frame H cap detector frame s h
    have hny : need_yolo { s with frame_count := s.frame_count + 1 } = true :=
      (need_yolo_iff _).mpr h
    simp only [processFrame, hny, if_true]
  · intro Frame H cap detector frame s h
    have hny : ¬ need_yolo { s with frame_count := s.frame_count + 1 } = true :=
      fun hc => h ((need_yolo_iff _).mp hc)
    simp only [processFrame, if_neg hny]
  · decide
  · decide

/-- C3 witness: both decision directions applied at concrete states. -/
theorem C3_redetect_cadence_witness :
    (processFrame steadyCap stubDetector 0 (MPTState.init 30 (3 / 10)) =
      (cleanupInactive (processWithYolo steadyCap stubDetector 0
          { MPTState.init 30 (3 / 10) with frame_count := 0 + 1 }).1,
       (processWithYolo steadyCap stubDetector 0
          { MPTState.init 30 (3 / 10) with frame_count := 0 + 1 }).2)) ∧
    (processFrame steadyCap stubDetector 0
        { (MPTState.init 30 (3 / 10) : MPTState Unit) with
          frame_count := 1
          tracked_persons := [(1, dummyPerson)] } =
      (cleanupInactive (processWithTrackers steadyCap 0
          { (MPTState.init 30 (3 / 10) : MPTState Unit) with
            frame_count := 1 + 1
            tracked_persons := [(1, dummyPerson)] }).1,
       (processWithTrackers steadyCap 0
          { (MPTState.init 30 (3 / 10) : MPTState Unit) with
            frame_count := 1 + 1
            tracked_persons := [(1, dummyPerson)] }).2)) :=
  ⟨C3_redetect_cadence.1 Nat Unit steadyCap stubDetector 0 (MPTState.init 30 (3 / 10))
      (Or.inl rfl),
   C3_redetect_cadence.2.1 Nat Unit steadyCap stubDetector 0
      { (MPTState.init 30 (3 / 10) : MPTState Unit) with
        frame_count := 1
        tracked_persons := [(1, dummyPerson)] }
      (by decide)⟩

lemma trackerFold_keys (cap : TrackerCap Frame H) (frame : Frame) :
    ∀ (l : List (Nat × TrackedPerson H)) (acc : List (Nat × TrackedPerson H) × List ResultEntry),
      ((l.foldl (trackerStep cap frame) acc).1).map (·.1)
        = acc.1.map (·.1) ++ l.map (·.1) := by
  intro l
  induction l with
  | nil => intro acc; simp
  | cons e t ih =>
    intro acc
    rw [List.foldl_cons, ih]
    have hstep : ((trackerStep cap frame acc e).1).map (·.1) = acc.1.map (·.1) ++ [e.1] := by
      unfold trackerStep
      by_cases h : e.2.is_active <;> simp [h]
    rw [hstep]
    simp

/-- C7: when the detector path is taken and the detector returns an
empty detection list, `_process_with_yolo` is the tracker-only path for
this frame — the very same `_process_with_trackers` state and result —
and the tracker-only path keeps the live set's keys unchanged, so no
existing Track is removed because redetection found nothing. -/
theorem C7_empty_detections_fallthrough (cap : TrackerCap Frame H)
    (detector : Frame → List Detection) (frame : Frame) (s : MPTState H)
    (hdet : detector frame = []) :
    processWithYolo cap detector frame s = processWithTrackers cap frame s ∧
    (processWithTrackers cap frame s).1.tracked_persons.map (·.1)
      = s.tracked_persons.map (·.1) := by
  constructor
  · simp [processWithYolo, hdet]
  · have h := trackerFold_keys cap frame s.tracked_persons ([], [])
    simpa [processWithTrackers] using h

/-- C7 witness: the fallthrough at a concrete state with one track. -/
theorem C7_empty_detections_fallthrough_witness :
    processWithYolo steadyCap (fun _ => []) 0
        { (MPTState.init 30 (3 / 10) : MPTState Unit) with
          frame_count := 1
          tracked_persons := [(1, dummyPerson)] }
      = processWithTrackers steadyCap 0
          { (MPTState.init 30 (3 / 10) : MPTState Unit) with
            frame_count := 1
            tracked_persons := [(1, dummyPerson)] } ∧
    (processWithTrackers steadyCap 0
        { (MPTState.init 30 (3 / 10) : MPTState Unit) with
          frame_count := 1
          tracked_persons := [(1, dummyPerson)] }).1.tracked_persons.map (·.1)
      = [(1, dummyPerson)].map (·.1) :=
  C7_empty_detections_fallthrough steadyCap (fun _ => []) 0
    { (MPTState.init 30 (3 / 10) : MPTState Unit) with
      frame_count := 1
      tracked_persons := [(1, dummyPerson)] } rfl

/-- Detector stub returning one zero-width detection every frame. -/
def zeroDetector : Nat → List Detection := fun _ => [(⟨0, 0, 0, 10⟩, 9 / 10)]

/-- C2 counterexample: with a capability that rejects every seed region
(`rejectCap.init` returns `false`, as OpenCV does for a zero-width box)
and a detector returning one zero-width detection, `process_frame`
still registers a new Track: the live set afterwards holds id `1`, a
fresh identity was issued (`next_id = 2`) and the detection was
reported, not dropped — there is no `TrackInitError` path in the code
(`TrackedPerson.__init__` discards the init result). -/
theorem C2_counterexample :
    ((processFrame rejectCap zeroDetector 0 (MPTState.init 30 (3 / 10))).1.tracked_persons.map
        (·.1) = [1]) ∧
    (processFrame rejectCap zeroDetector 0 (MPTState.init 30 (3 / 10))).1.next_id = 2 ∧
    (processFrame rejectCap zeroDetector 0 (MPTState.init 30 (3 / 10))).2
      = [(1, ⟨0, 0, 0, 10⟩, 9 / 10, "yolo")] := by
  decide

/-- C2 (amended): Track creation never fails — the capability's verdict
on the seed region is discarded, so for any detection reaching the
creation phase (here: sole detection, empty live set) the Associator
registers a Track under the fresh id, issues the next identity, and
reports the detection this frame; the run continues normally. -/
theorem C2_seed_rejection_ignored (cap : TrackerCap Frame H)
    (detector : Frame → List Detection) (frame : Frame) (s : MPTState H)
    (det : Detection) (hempty : s.tracked_persons = [])
    (hdet : detector frame = [det]) :
    ((processFrame cap detector frame s).1.tracked_persons.map (·.1) = [s.next_id]) ∧
    (processFrame cap detector frame s).1.next_id = s.next_id + 1 ∧
    (processFrame cap detector frame s).2.head?
      = some (s.next_id, det.1, det.2, "yolo") := by
  have hny : need_yolo { s with frame_count := s.frame_count + 1 } = true := by
    simp [need_yolo, hempty]
  simp only [processFrame, hny, if_true]
  rcases hu : cap.update ((cap.init frame
        (det.1.x1, det.1.y1, det.1.x2 - det.1.x1, det.1.y2 - det.1.y1)).2) frame with
    _ | ⟨⟨x, y, w, h⟩, h2⟩ <;>
    simp [processWithYolo, hdet, hempty, List.enum, List.enumFrom, matchStep, createStep,
      advanceUnmatchedStep, cleanupInactive, TrackedPerson.create,
      TrackedPerson.update_with_tracker, hu]

/-- C2 witness: the amended behaviour at the concrete rejecting
capability and zero-width detection. -/
theorem C2_seed_rejection_ignored_witness :
    ((processFrame rejectCap zeroDetector 5 (MPTState.init 30 (3 / 10))).1.tracked_persons.map
        (·.1) = [(MPTState.init 30 (3 / 10) : MPTState Unit).next_id]) ∧
    (processFrame rejectCap zeroDetector 5 (MPTState.init 30 (3 / 10))).1.next_id
      = (MPTState.init 30 (3 / 10) : MPTState Unit).next_id + 1 ∧
    (processFrame rejectCap zeroDetector 5 (MPTState.init 30 (3 / 10))).2.head?
      = some ((MPTState.init 30 (3 / 10) : MPTState Unit).next_id, ⟨0, 0, 0, 10⟩,
          9 / 10, "yolo") :=
  C2_seed_rejection_ignored rejectCap zeroDetector 5 (MPTState.init 30 (3 / 10))
    (⟨0, 0, 0, 10⟩, 9 / 10) rfl rfl

/-! ### Helper lemmas for the lifecycle / cleanup claim -/

lemma update_keeps_active (cap : TrackerCap Frame H) (p : TrackedPerson H) (frame : Frame)
    (h : (p.update_with_tracker cap frame).1 = true) :
    (p.update_with_tracker cap frame).2.is_active = p.is_active := by
  rcases hu : cap.update p.tracker frame with _ | ⟨⟨x, y, w, z⟩, h2⟩
  · exfalso
    simp [TrackedPerson.update_with_tracker, hu] at h
  · simp [TrackedPerson.update_with_tracker, hu]

lemma update_still_active_of_lost_zero (cap : TrackerCap Frame H) (p : TrackedPerson H)
    (frame : Frame) (ha : p.is_active = true) (hl : p.lost_frames = 0) :
    (p.update_with_tracker cap frame).2.is_active = true := by
  rcases hu : cap.update p.tracker frame with _ | ⟨⟨x, y, w, z⟩, h2⟩
  · simp [TrackedPerson.update_with_tracker, hu, hl, ha]
  · simp [TrackedPerson.update_with_tracker, hu, ha]

lemma update_fail_deactivates (cap : TrackerCap Frame H) (p : TrackedPerson H)
    (frame : Frame) (hf : (p.update_with_tracker cap frame).1 = false)
    (hl : (p.update_with_tracker cap frame).2.lost_frames > 10) :
    (p.update_with_tracker cap frame).2.is_active = false := by
  rcases hu : cap.update p.tracker frame with _ | ⟨⟨x, y, w, z⟩, h2⟩
  · simp only [TrackedPerson.update_with_tracker, hu, gt_iff_lt] at hl ⊢
    simp only [gt_iff_lt, if_pos hl]
  · exfalso
    simp [TrackedPerson.update_with_tracker, hu] at hf

lemma lookup_cons {α : Type} (e : Nat × α) (t : List (Nat × α)) (k : Nat) :
    (e :: t).lookup k = if k = e.1 then some e.2 else t.lookup k := by
  rcases e with ⟨a, b⟩
  rw [List.lookup]
  by_cases hk : k = a
  · simp [hk]
  · rw [if_neg hk]
    rw [show (k == a) = false by simpa using hk]

lemma lookup_mem {α : Type} {l : List (Nat × α)} {k : Nat} {v : α}
    (h : l.lookup k = some v) : (k, v) ∈ l := by
  induction l with
  | nil => simp [List.lookup] at h
  | cons e t ih =>
    rw [lookup_cons] at h
    by_cases hk : k = e.1
    · rw [if_pos hk] at h
      obtain rfl : e.2 = v := by injection h
      exact List.mem_cons.mpr (Or.inl (by rw [hk]))
    · rw [if_neg hk] at h
      exact List.mem_cons_of_mem _ (ih h)

lemma lookup_isSome_of_mem_keys {α : Type} {l : List (Nat × α)} {k : Nat}
    (h : k ∈ l.map (·.1)) : ∃ v, l.lookup k = some v := by
  induction l with
  | nil => simp at h
  | cons e t ih =>
    rw [lookup_cons]
    by_cases hk : k = e.1
    · exact ⟨e.2, by rw [if_pos hk]⟩
    · rw [if_neg hk]
      apply ih
      rcases List.mem_map.mp h with ⟨x, hx, hk2⟩
      rcases List.mem_cons.mp hx with rfl | hxt
      · exact absurd hk2.symm hk
      · exact List.mem_map.mpr ⟨x, hxt, hk2⟩

lemma eq_of_mem_keys_nodup {α : Type} {l : List (Nat × α)}
    (h : (l.map (·.1)).Nodup) {a b : Nat × α}
    (ha : a ∈ l) (hb : b ∈ l) (hk : a.1 = b.1) : a = b := by
  induction l with
  | nil => simp at ha
  | cons e t ih =>
    rw [List.map_cons, List.nodup_cons] at h
    rcases List.mem_cons.mp ha with rfl | hat <;> rcases List.mem_cons.mp hb with rfl | hbt
    · rfl
    · exact absurd (List.mem_map.mpr ⟨b, hbt, hk.symm⟩) h.1
    · exact absurd (List.mem_map.mpr ⟨a, hat, hk⟩) h.1
    · exact ih h.2 hat hbt

lemma setPerson_keys (l : List (Nat × TrackedPerson H)) (tid : Nat) (p : TrackedPerson H) :
    (setPerson l tid p).map (·.1) = l.map (·.1) := by
  unfold setPerson
  rw [List.map_map]
  apply List.map_congr_left
  intro e _
  by_cases h : e.1 = tid <;> simp [h]

lemma mem_setPerson_of_ne {l : List (Nat × TrackedPerson H)} {tid : Nat}
    {p : TrackedPerson H} {e : Nat × TrackedPerson H} (he : e ∈ l) (hne : e.1 ≠ tid) :
    e ∈ setPerson l tid p := by
  unfold setPerson
  have h := List.mem_map_of_mem (fun e => if e.1 = tid then (tid, p) else e) he
  simpa [hne] using h

lemma mem_setPerson {l : List (Nat × TrackedPerson H)} {tid : Nat} {p : TrackedPerson H}
    {e : Nat × TrackedPerson H} (he : e ∈ setPerson l tid p) :
    e = (tid, p) ∨ e ∈ l := by
  unfold setPerson at he
  rcases List.mem_map.mp he with ⟨x, hx, hfx⟩
  by_cases h : x.1 = tid
  · rw [if_pos h] at hfx
    exact Or.inl hfx.symm
  · rw [if_neg h] at hfx
    exact Or.inr (hfx ▸ hx)

lemma cleanup_all_active (s : MPTState H) :
    ∀ e ∈ (cleanupInactive s).tracked_persons, e.2.is_active = true := by
  intro e he
  unfold cleanupInactive at he
  rcases List.mem_filter.mp he with ⟨hmem, hcond⟩
  by_cases hact : e.2.is_active = true
  · exact hact
  · exfalso
    have hkey : e.1 ∈ ((s.tracked_persons.filter fun x => !x.2.is_active).map (·.1)) :=
      List.mem_map.mpr ⟨e, List.mem_filter.mpr ⟨hmem, by simp [hact]⟩, rfl⟩
    rw [Bool.not_eq_true', ← Bool.not_eq_true] at hcond
    exact hcond (List.contains_iff_exists_mem_beq.mpr ⟨e.1, hkey, by simp⟩)

lemma cleanup_keeps_active (s : MPTState H)
    (hnodup : (s.tracked_persons.map (·.1)).Nodup)
    {e : Nat × TrackedPerson H} (he : e ∈ s.tracked_persons)
    (hact : e.2.is_active = true) :
    e ∈ (cleanupInactive s).tracked_persons := by
  unfold cleanupInactive
  refine List.mem_filter.mpr ⟨he, ?_⟩
  rw [Bool.not_eq_true']
  rw [← Bool.not_eq_true]
  intro hc
  rcases List.contains_iff_exists_mem_beq.mp hc with ⟨k, hk, hbeq⟩
  obtain rfl : e.1 = k := by simpa using hbeq
  rcases List.mem_map.mp hk with ⟨e', he', hk'⟩
  have hfil := List.mem_filter.mp he'
  have : e' = e := eq_of_mem_keys_nodup hnodup hfil.1 he hk'
  rw [this] at hfil
  rw [hact] at hfil
  simp at hfil

/-- The entry produced by one `_process_with_trackers` iteration. -/
def advancedEntry (cap : TrackerCap Frame H) (frame : Frame) (e : Nat × TrackedPerson H) :
    Nat × TrackedPerson H :=
  if e.2.is_active then (e.1, (e.2.update_with_tracker cap frame).2) else e

/-- The optional result entry produced by one `_process_with_trackers`
iteration. -/
def advancedResult (cap : TrackerCap Frame H) (frame : Frame) (e : Nat × TrackedPerson H) :
    Option ResultEntry :=
  if e.2.is_active = true ∧ (e.2.update_with_tracker cap frame).1 = true then
    some (e.1, (e.2.update_with_tracker cap frame).2.bbox,
      (e.2.update_with_tracker cap frame).2.confidence, "tracker")
  else none

lemma trackerStep_eq (cap : TrackerCap Frame H) (frame : Frame)
    (acc : List (Nat × TrackedPerson H) × List ResultEntry) (e : Nat × TrackedPerson H) :
    trackerStep cap frame acc e
      = (acc.1 ++ [advancedEntry cap frame e],
         acc.2 ++ (advancedResult cap frame e).toList) := by
  unfold trackerStep advancedEntry advancedResult
  by_cases ha : e.2.is_active = true
  · by_cases hs : (e.2.update_with_tracker cap frame).1 = true <;> simp [ha, hs]
  · simp [ha]

lemma trackerFold_eq (cap : TrackerCap Frame H) (frame : Frame) :
    ∀ (l : List (Nat × TrackedPerson H)) (acc : List (Nat × TrackedPerson H) × List ResultEntry),
      l.foldl (trackerStep cap frame) acc
        = (acc.1 ++ l.map (advancedEntry cap frame),
           acc.2 ++ l.filterMap (advancedResult cap frame)) := by
  intro l
  induction l with
  | nil => intro acc; simp
  | cons e t ih =>
    intro acc
    rw [List.foldl_cons, trackerStep_eq, ih]
    cases hre : advancedResult cap frame e <;>
      simp [List.filterMap_cons, hre]

lemma processWithTrackers_eq (cap : TrackerCap Frame H) (frame : Frame) (s : MPTState H) :
    processWithTrackers cap frame s
      = ({ s with tracked_persons := s.tracked_persons.map (advancedEntry cap frame) },
         s.tracked_persons.filterMap (advancedResult cap frame)) := by
  unfold processWithTrackers
  rw [trackerFold_eq]
  simp

/-- The entry produced by one iteration of the final
`_process_with_yolo` loop. -/
def yoloAdvEntry (cap : TrackerCap Frame H) (frame : Frame) (matched : List Nat)
    (e : Nat × TrackedPerson H) : Nat × TrackedPerson H :=
  if matched.contains e.1 then e else (e.1, (e.2.update_with_tracker cap frame).2)

/-- The optional result entry produced by one iteration of the final
`_process_with_yolo` loop. -/
def yoloAdvResult (cap : TrackerCap Frame H) (frame : Frame) (matched : List Nat)
    (e : Nat × TrackedPerson H) : Option ResultEntry :=
  if matched.contains e.1 = false ∧ (e.2.update_with_tracker cap frame).1 = true then
    some (e.1, (e.2.update_with_tracker cap frame).2.bbox,
      (e.2.update_with_tracker cap frame).2.confidence, "tracker")
  else none

lemma advanceUnmatchedStep_eq (cap : TrackerCap Frame H) (frame : Frame) (matched : List Nat)
    (acc : List (Nat × TrackedPerson H) × List ResultEntry) (e : Nat × TrackedPerson H) :
    advanceUnmatchedStep cap frame matched acc e
      = (acc.1 ++ [yoloAdvEntry cap frame matched e],
         acc.2 ++ (yoloAdvResult cap frame matched e).toList) := by
  unfold advanceUnmatchedStep yoloAdvEntry yoloAdvResult
  by_cases hm : e.1 ∈ matched
  · simp [hm]
  · by_cases hs : (e.2.update_with_tracker cap frame).1 = true <;> simp [hm, hs]

lemma advanceUnmatchedFold_eq (cap : TrackerCap Frame H) (frame : Frame) (matched : List Nat) :
    ∀ (l : List (Nat × TrackedPerson H)) (acc : List (Nat × TrackedPerson H) × List ResultEntry),
      l.foldl (advanceUnmatchedStep cap frame matched) acc
        = (acc.1 ++ l.map (yoloAdvEntry cap frame matched),
           acc.2 ++ l.filterMap (yoloAdvResult cap frame matched)) := by
  intro l
  induction l with
  | nil => intro acc; simp
  | cons e t ih =>
    intro acc
    rw [List.foldl_cons, advanceUnmatchedStep_eq, ih]
    cases hre : yoloAdvResult cap frame matched e <;>
      simp [List.filterMap_cons, hre]

lemma contains_true_of_mem {l : List Nat} {a : Nat} (h : a ∈ l) : l.contains a = true := by
  simpa using h

lemma contains_false_of_not_mem {l : List Nat} {a : Nat} (h : a ∉ l) :
    l.contains a = false := by
  simpa using h

lemma update_with_detection_active (cap : TrackerCap Frame H) (p : TrackedPerson H)
    (bbox : Box) (frame : Frame) :
    (p.update_with_detection cap bbox frame).is_active = p.is_active := rfl

lemma mem_setPerson_self {l : List (Nat × TrackedPerson H)} {tid : Nat}
    (p : TrackedPerson H) (h : tid ∈ l.map (·.1)) : (tid, p) ∈ setPerson l tid p := by
  rcases List.mem_map.mp h with ⟨e, he, hk⟩
  unfold setPerson
  have h2 := List.mem_map_of_mem (fun e => if e.1 = tid then (tid, p) else e) he
  simpa [hk] using h2

lemma bestMatch_some {thr : ℚ} {det : Box} {matched : List Nat}
    {persons : List (Nat × TrackedPerson H)} {tid : Nat}
    (h : bestMatch thr det matched persons = some tid) :
    tid ∉ matched ∧ tid ∈ persons.map (·.1) := by
  have aux : ∀ (l : List (Nat × TrackedPerson H)) (b : ℚ × Option Nat),
      ((l.foldl
        (fun best e =>
          if matched.contains e.1 then best
          else
            let iou := calc_iou det e.2.bbox
            if iou > best.1 ∧ iou > thr then (iou, some e.1) else best) b).2 = some tid) →
      b.2 = some tid ∨ (tid ∉ matched ∧ tid ∈ l.map (·.1)) := by
    intro l
    induction l with
    | nil => intro b hb; exact Or.inl hb
    | cons e t ih =>
      intro b hb
      rw [List.foldl_cons] at hb
      rcases ih _ hb with hstep | hrest
      · by_cases hm : e.1 ∈ matched
        · rw [if_pos (contains_true_of_mem hm)] at hstep
          exact Or.inl hstep
        · rw [contains_false_of_not_mem hm] at hstep
          rw [if_neg (by simp)] at hstep
          by_cases hc : calc_iou det e.2.bbox > b.1 ∧ calc_iou det e.2.bbox > thr
          · simp only [if_pos hc] at hstep
            obtain rfl : e.1 = tid := by injection hstep
            exact Or.inr ⟨hm, by simp⟩
          · simp only [if_neg hc] at hstep
            exact Or.inl hstep
      · exact Or.inr ⟨hrest.1, by simpa using Or.inr (List.mem_map.mp hrest.2)⟩
  have h2 := aux persons ((0 : ℚ), (none : Option Nat)) h
  rcases h2 with hb | hr
  · exact absurd hb (by simp)
  · exact hr

lemma matchFold_inv (cap : TrackerCap Frame H) (thr : ℚ) (frame : Frame) :
    ∀ (dets : List (Nat × Detection)) (acc : MatchAcc H),
      (∀ e ∈ acc.persons, e.2.is_active = true) →
      (∀ r ∈ acc.results, ∃ e ∈ acc.persons,
          e.1 = r.1 ∧ e.2.is_active = true ∧ e.1 ∈ acc.matched_track_ids) →
      (∀ i ∈ acc.matched_track_ids, i ∈ acc.persons.map (·.1)) →
      ((dets.foldl (matchStep cap thr frame) acc).persons.map (·.1)
          = acc.persons.map (·.1)) ∧
      (∀ e ∈ (dets.foldl (matchStep cap thr frame) acc).persons, e.2.is_active = true) ∧
      (∀ r ∈ (dets.foldl (matchStep cap thr frame) acc).results,
        ∃ e ∈ (dets.foldl (matchStep cap thr frame) acc).persons,
          e.1 = r.1 ∧ e.2.is_active = true ∧
          e.1 ∈ (dets.foldl (matchStep cap thr frame) acc).matched_track_ids) ∧
      (∀ i ∈ (dets.foldl (matchStep cap thr frame) acc).matched_track_ids,
        i ∈ (dets.foldl (matchStep cap thr frame) acc).persons.map (·.1)) := by
  intro dets
  induction dets with
  | nil => intro acc h1 h2 h3; exact ⟨rfl, h1, h2, h3⟩
  | cons d t ih =>
    intro acc h1 h2 h3
    rw [List.foldl_cons]
    rcases hbm : bestMatch thr d.2.1 acc.matched_track_ids acc.persons with _ | tid
    · have hstep : matchStep cap thr frame acc d = acc := by
        simp only [matchStep]
        rw [hbm]
      rw [hstep]
      exact ih acc h1 h2 h3
    · obtain ⟨hnm, hkey⟩ := bestMatch_some hbm
      obtain ⟨person, hlk⟩ := lookup_isSome_of_mem_keys hkey
      have hpmem : (tid, person) ∈ acc.persons := lookup_mem hlk
      have hstep : matchStep cap thr frame acc d =
          { persons := setPerson acc.persons tid
              (person.update_with_detection cap d.2.1 frame)
            matched_track_ids := acc.matched_track_ids ++ [tid]
            matched_det_indices := acc.matched_det_indices ++ [d.1]
            results := acc.results ++ [(tid, d.2.1, d.2.2, "yolo")] } := by
        simp only [matchStep]
        rw [hbm]
        simp only [hlk]
      rw [hstep]
      have hup_active : (person.update_with_detection cap d.2.1 frame).is_active = true := by
        rw [update_with_detection_active]
        exact h1 _ hpmem
      have h1' : ∀ e ∈ setPerson acc.persons tid
          (person.update_with_detection cap d.2.1 frame), e.2.is_active = true := by
        intro e he
        rcases mem_setPerson he with rfl | hmem
        · exact hup_active
        · exact h1 _ hmem
      have h2' : ∀ r ∈ acc.results ++ [(tid, d.2.1, d.2.2, "yolo")],
          ∃ e ∈ setPerson acc.persons tid
            (person.update_with_detection cap d.2.1 frame),
            e.1 = r.1 ∧ e.2.is_active = true ∧ e.1 ∈ acc.matched_track_ids ++ [tid] := by
        intro r hr
        rcases List.mem_append.mp hr with hro | hrn
        · obtain ⟨e, he, hek, hea, hem⟩ := h2 r hro
          have hne : e.1 ≠ tid := fun hc => hnm (hc ▸ hem)
          exact ⟨e, mem_setPerson_of_ne he hne, hek, hea,
            List.mem_append.mpr (Or.inl hem)⟩
        · obtain rfl : r = (tid, d.2.1, d.2.2, "yolo") := by simpa using hrn
          exact ⟨(tid, person.update_with_detection cap d.2.1 frame),
            mem_setPerson_self _ hkey, rfl, hup_active, by simp⟩
      have h3' : ∀ i ∈ acc.matched_track_ids ++ [tid],
          i ∈ (setPerson acc.persons tid
            (person.update_with_detection cap d.2.1 frame)).map (·.1) := by
        intro i hi
        rw [setPerson_keys]
        rcases List.mem_append.mp hi with hio | hin
        · exact h3 i hio
        · obtain rfl : i = tid := by simpa using hin
          exact hkey
      obtain ⟨hkeys, ha, hrb, hrc⟩ := ih
        { persons := setPerson acc.persons tid
            (person.update_with_detection cap d.2.1 frame)
          matched_track_ids := acc.matched_track_ids ++ [tid]
          matched_det_indices := acc.matched_det_indices ++ [d.1]
          results := acc.results ++ [(tid, d.2.1, d.2.2, "yolo")] } h1' h2' h3'
      refine ⟨?_, ha, hrb, hrc⟩
      rw [hkeys]
      exact setPerson_keys _ _ _

lemma createFold_inv (cap : TrackerCap Frame H) (frame : Frame) (mdi : List Nat) :
    ∀ (dets : List (Nat × Detection)) (c : CreateAcc H),
      ∃ news : List (Nat × TrackedPerson H),
        (dets.foldl (createStep cap frame mdi) c).persons = c.persons ++ news ∧
        news.map (·.1) = List.range' c.next_id news.length ∧
        (dets.foldl (createStep cap frame mdi) c).next_id = c.next_id + news.length ∧
        (dets.foldl (createStep cap frame mdi) c).created_ids
          = c.created_ids ++ news.map (·.1) ∧
        (∀ e ∈ news, e.2.is_active = true ∧ e.2.lost_frames = 0) ∧
        (∀ r ∈ (dets.foldl (createStep cap frame mdi) c).results,
          r ∈ c.results ∨ ∃ e ∈ news, e.1 = r.1) := by
  intro dets
  induction dets with
  | nil =>
    intro c
    exact ⟨[], by simp, by simp, by simp, by simp, by simp, fun r hr => Or.inl hr⟩
  | cons d t ih =>
    intro c
    rw [List.foldl_cons]
    by_cases hm : mdi.contains d.1 = true
    · have hstep : createStep cap frame mdi c d = c := by
        unfold createStep
        rw [if_pos hm]
      rw [hstep]
      exact ih c
    · rw [Bool.not_eq_true] at hm
      have hstep : createStep cap frame mdi c d =
          { persons := c.persons ++
              [(c.next_id, TrackedPerson.create cap c.next_id d.2.1 frame)]
            next_id := c.next_id + 1
            created_ids := c.created_ids ++ [c.next_id]
            results := c.results ++ [(c.next_id, d.2.1, d.2.2, "yolo")] } := by
        unfold createStep
        rw [if_neg (by rw [hm]; simp)]
      rw [hstep]
      obtain ⟨news', hp, hk, hn, hcr, hae, hres⟩ := ih
        { persons := c.persons ++
            [(c.next_id, TrackedPerson.create cap c.next_id d.2.1 frame)]
          next_id := c.next_id + 1
          created_ids := c.created_ids ++ [c.next_id]
          results := c.results ++ [(c.next_id, d.2.1, d.2.2, "yolo")] }
      refine ⟨(c.next_id, TrackedPerson.create cap c.next_id d.2.1 frame) :: news',
        ?_, ?_, ?_, ?_, ?_, ?_⟩
      · rw [hp]
        simp
      · rw [List.map_cons, hk, List.length_cons, List.range'_succ]
      · rw [hn, List.length_cons]
        show c.next_id + 1 + news'.length = c.next_id + (news'.length + 1)
        omega
      · rw [hcr, List.map_cons, hk]
        simp
      · intro e he
        rcases List.mem_cons.mp he with rfl | ht
        · exact ⟨rfl, rfl⟩
        · exact hae e ht
      · intro r hr
        rcases hres r hr with hro | ⟨e, he, hek⟩
        · rcases List.mem_append.mp hro with hrc | hrn
          · exact Or.inl hrc
          · obtain rfl : r = (c.next_id, d.2.1, d.2.2, "yolo") := by simpa using hrn
            exact Or.inr ⟨(c.next_id, TrackedPerson.create cap c.next_id d.2.1 frame),
              List.mem_cons_self _ _, rfl⟩
        · exact Or.inr ⟨e, List.mem_cons_of_mem _ he, hek⟩

lemma advancedEntry_key (cap : TrackerCap Frame H) (frame : Frame)
    (e : Nat × TrackedPerson H) : (advancedEntry cap frame e).1 = e.1 := by
  unfold advancedEntry
  split <;> rfl

lemma yoloAdvEntry_key (cap : TrackerCap Frame H) (frame : Frame) (matched : List Nat)
    (e : Nat × TrackedPerson H) : (yoloAdvEntry cap frame matched e).1 = e.1 := by
  unfold yoloAdvEntry
  split <;> rfl

lemma map_keys_advancedEntry (cap : TrackerCap Frame H) (frame : Frame)
    (l : List (Nat × TrackedPerson H)) :
    (l.map (advancedEntry cap frame)).map (·.1) = l.map (·.1) := by
  rw [List.map_map]
  exact List.map_congr_left fun e _ => advancedEntry_key cap frame e

lemma map_keys_yoloAdvEntry (cap : TrackerCap Frame H) (frame : Frame) (matched : List Nat)
    (l : List (Nat × TrackedPerson H)) :
    (l.map (yoloAdvEntry cap frame matched)).map (·.1) = l.map (·.1) := by
  rw [List.map_map]
  exact List.map_congr_left fun e _ => yoloAdvEntry_key cap frame matched e

lemma advancedResult_some {cap : TrackerCap Frame H} {frame : Frame}
    {e : Nat × TrackedPerson H} {r : ResultEntry}
    (h : advancedResult cap frame e = some r) :
    e.2.is_active = true ∧ (e.2.update_with_tracker cap frame).1 = true ∧ r.1 = e.1 := by
  unfold advancedResult at h
  split_ifs at h with hc
  injection h with h2
  subst h2
  exact ⟨hc.1, hc.2, rfl⟩

lemma yoloAdvResult_some {cap : TrackerCap Frame H} {frame : Frame} {matched : List Nat}
    {e : Nat × TrackedPerson H} {r : ResultEntry}
    (h : yoloAdvResult cap frame matched e = some r) :
    matched.contains e.1 = false ∧ (e.2.update_with_tracker cap frame).1 = true ∧
      r.1 = e.1 := by
  unfold yoloAdvResult at h
  split_ifs at h with hc
  injection h with h2
  subst h2
  exact ⟨hc.1, hc.2, rfl⟩

lemma trackersPath_results (cap : TrackerCap Frame H) (frame : Frame) (s : MPTState H)
    (hnodup : (s.tracked_persons.map (·.1)).Nodup) :
    ∀ r ∈ (processWithTrackers cap frame s).2,
      ∃ e ∈ (cleanupInactive (processWithTrackers cap frame s).1).tracked_persons,
        e.1 = r.1 := by
  rw [processWithTrackers_eq]
  intro r hr
  simp only at hr
  rcases List.mem_filterMap.mp hr with ⟨e, he, hsome⟩
  obtain ⟨hea, hsu, hrk⟩ := advancedResult_some hsome
  have hentry : advancedEntry cap frame e = (e.1, (e.2.update_with_tracker cap frame).2) := by
    unfold advancedEntry
    rw [if_pos hea]
  have hact2 : (advancedEntry cap frame e).2.is_active = true := by
    rw [hentry]
    rw [show ((e.1, (e.2.update_with_tracker cap frame).2) :
      Nat × TrackedPerson H).2 = (e.2.update_with_tracker cap frame).2 from rfl]
    rw [update_keeps_active cap e.2 frame hsu]
    exact hea
  have hmem2 : advancedEntry cap frame e ∈
      s.tracked_persons.map (advancedEntry cap frame) :=
    List.mem_map_of_mem _ he
  have hnodup2 : ((s.tracked_persons.map (advancedEntry cap frame)).map (·.1)).Nodup := by
    rw [map_keys_advancedEntry]
    exact hnodup
  refine ⟨advancedEntry cap frame e,
    cleanup_keeps_active _ hnodup2 hmem2 hact2, ?_⟩
  rw [hentry, hrk]

lemma yoloTail_results (cap : TrackerCap Frame H) (frame : Frame) (s : MPTState H)
    (dets : List (Nat × Detection)) (A : MatchAcc H) (c : CreateAcc H)
    (hc : c = dets.foldl (createStep cap frame A.matched_det_indices)
      ⟨A.persons, s.next_id, s.created_ids, A.results⟩)
    (hAkeys : A.persons.map (·.1) = s.tracked_persons.map (·.1))
    (hAact : ∀ e ∈ A.persons, e.2.is_active = true)
    (hAI1 : ∀ r ∈ A.results, ∃ e ∈ A.persons,
        e.1 = r.1 ∧ e.2.is_active = true ∧ e.1 ∈ A.matched_track_ids)
    (hAI2 : ∀ i ∈ A.matched_track_ids, i ∈ A.persons.map (·.1))
    (hnodup : (s.tracked_persons.map (·.1)).Nodup)
    (hlt : ∀ k ∈ s.tracked_persons.map (·.1), k < s.next_id) :
    ∀ r ∈ (c.persons.foldl (advanceUnmatchedStep cap frame A.matched_track_ids)
        ([], c.results)).2,
      ∃ e ∈ (cleanupInactive { s with
          tracked_persons := (c.persons.foldl
            (advanceUnmatchedStep cap frame A.matched_track_ids) ([], c.results)).1
          next_id := c.next_id
          created_ids := c.created_ids }).tracked_persons,
        e.1 = r.1 := by
  obtain ⟨news, hcp, hknews, hcn, hccr, hnact, hcres⟩ :=
    createFold_inv cap frame A.matched_det_indices dets
      ⟨A.persons, s.next_id, s.created_ids, A.results⟩
  dsimp only at hcp hknews hcn hccr hcres
  rw [← hc] at hcp hcn hccr hcres
  have hcpk : c.persons.map (·.1)
      = s.tracked_persons.map (·.1) ++ List.range' s.next_id news.length := by
    rw [hcp, List.map_append, hAkeys, hknews]
  have hnodup2 : (c.persons.map (·.1)).Nodup := by
    rw [hcpk]
    refine List.Nodup.append hnodup (List.nodup_range' _ _) ?_
    intro k hk1 hk2
    have h1 := hlt k hk1
    have h2 := (List.mem_range'_1.mp hk2).1
    omega
  have hcact : ∀ e ∈ c.persons, e.2.is_active = true := by
    intro e he
    rw [hcp] at he
    rcases List.mem_append.mp he with h | h
    · exact hAact e h
    · exact (hnact e h).1
  rw [advanceUnmatchedFold_eq]
  simp only [List.nil_append]
  have hmapnodup : ((c.persons.map
      (yoloAdvEntry cap frame A.matched_track_ids)).map (·.1)).Nodup := by
    rw [map_keys_yoloAdvEntry]
    exact hnodup2
  -- an entry of `c.persons` that is active after the advance loop
  -- survives the cleanup
  have hkeep : ∀ e ∈ c.persons,
      (yoloAdvEntry cap frame A.matched_track_ids e).2.is_active = true →
      ∃ e' ∈ (cleanupInactive { s with
          tracked_persons := c.persons.map (yoloAdvEntry cap frame A.matched_track_ids)
          next_id := c.next_id
          created_ids := c.created_ids }).tracked_persons,
        e'.1 = e.1 := by
    intro e he hact2
    refine ⟨yoloAdvEntry cap frame A.matched_track_ids e,
      cleanup_keeps_active _ hmapnodup (List.mem_map_of_mem _ he) hact2, ?_⟩
    exact yoloAdvEntry_key cap frame A.matched_track_ids e
  intro r hr
  rcases List.mem_append.mp hr with hrc | hrf
  · -- results carried over from the match and creation phases
    rcases hcres r hrc with hrA | ⟨en, hen, henk⟩
    · -- a `"yolo"` entry from the association phase
      obtain ⟨e, he, hek, hea, hem⟩ := hAI1 r hrA
      have heC : e ∈ c.persons := by
        rw [hcp]
        exact List.mem_append.mpr (Or.inl he)
      have hadv : yoloAdvEntry cap frame A.matched_track_ids e = e := by
        unfold yoloAdvEntry
        rw [if_pos (contains_true_of_mem hem)]
      obtain ⟨e', he', hk'⟩ := hkeep e heC (by rw [hadv]; exact hea)
      exact ⟨e', he', by rw [hk', hek]⟩
    · -- a `"yolo"` entry from the creation phase
      have henC : en ∈ c.persons := by
        rw [hcp]
        exact List.mem_append.mpr (Or.inr hen)
      have hge : s.next_id ≤ en.1 := by
        have : en.1 ∈ List.range' s.next_id news.length := by
          rw [← hknews]
          exact List.mem_map_of_mem _ hen
        exact (List.mem_range'_1.mp this).1
      have hnm : en.1 ∉ A.matched_track_ids := by
        intro hmem
        have := hlt en.1 (hAkeys ▸ hAI2 en.1 hmem)
        omega
      have hadv : yoloAdvEntry cap frame A.matched_track_ids en
          = (en.1, (en.2.update_with_tracker cap frame).2) := by
        unfold yoloAdvEntry
        rw [contains_false_of_not_mem hnm]
        simp
      obtain ⟨e', he', hk'⟩ := hkeep en henC (by
        rw [hadv]
        exact update_still_active_of_lost_zero cap en.2 frame (hnact en hen).1
          (hnact en hen).2)
      exact ⟨e', he', by rw [hk', henk]⟩
  · -- a `"tracker"` entry from the final advance loop
    rcases List.mem_filterMap.mp hrf with ⟨e, he, hsome⟩
    obtain ⟨hnc, hsu, hrk⟩ := yoloAdvResult_some hsome
    have hadv : yoloAdvEntry cap frame A.matched_track_ids e
        = (e.1, (e.2.update_with_tracker cap frame).2) := by
      unfold yoloAdvEntry
      rw [hnc]
      simp
    obtain ⟨e', he', hk'⟩ := hkeep e he (by
      rw [hadv]
      rw [show ((e.1, (e.2.update_with_tracker cap frame).2) :
        Nat × TrackedPerson H).2 = (e.2.update_with_tracker cap frame).2 from rfl]
      rw [update_keeps_active cap e.2 frame hsu]
      exact hcact e he)
    exact ⟨e', he', by rw [hk', hrk]⟩

lemma yoloPath_results (cap : TrackerCap Frame H) (detector : Frame → List Detection)
    (frame : Frame) (s : MPTState H)
    (hact : ∀ e ∈ s.tracked_persons, e.2.is_active = true)
    (hnodup : (s.tracked_persons.map (·.1)).Nodup)
    (hlt : ∀ k ∈ s.tracked_persons.map (·.1), k < s.next_id) :
    ∀ r ∈ (processWithYolo cap detector frame s).2,
      ∃ e ∈ (cleanupInactive (processWithYolo cap detector frame s).1).tracked_persons,
        e.1 = r.1 := by
  by_cases hdet : (detector frame).isEmpty = true
  · have heq : processWithYolo cap detector frame s = processWithTrackers cap frame s := by
      simp [processWithYolo, hdet]
    rw [heq]
    exact trackersPath_results cap frame s hnodup
  · rw [Bool.not_eq_true] at hdet
    simp only [processWithYolo, hdet, Bool.false_eq_true, if_false]
    by_cases hpe : s.tracked_persons.isEmpty = true
    · simp only [hpe, if_true]
      exact yoloTail_results cap frame s (detector frame).enum
        ⟨s.tracked_persons, [], [], []⟩ _ rfl rfl hact (by simp) (by simp) hnodup hlt
    · rw [Bool.not_eq_true] at hpe
      simp only [hpe, Bool.false_eq_true, if_false]
      obtain ⟨hk, ha, h1, h2⟩ := matchFold_inv cap s.iou_threshold frame
        (detector frame).enum ⟨s.tracked_persons, [], [], []⟩ hact (by simp) (by simp)
      exact yoloTail_results cap frame s (detector frame).enum
        ((detector frame).enum.foldl (matchStep cap s.iou_threshold frame)
          ⟨s.tracked_persons, [], [], []⟩) _ rfl hk ha h1 h2 hnodup hlt

/-- C4: a failed advance that pushes `lost_frames` past 10 sets
`active` to false; the cleanup at the end of `process_frame` — run on
both the detector and the tracker-only path — leaves only active Tracks
in the live set; and (from a well-formed state: all tracks active,
distinct ids, ids below `next_id`) every result entry of a frame refers
to a Track still present in the live set after that same step, so no
frame ever emits a terminated Track. -/
theorem C4_lifecycle_cleanup :
    (∀ (Frame H : Type) (cap : TrackerCap Frame H) (p : TrackedPerson H) (frame : Frame),
      (p.update_with_tracker cap frame).1 = false →
      (p.update_with_tracker cap frame).2.lost_frames > 10 →
      (p.update_with_tracker cap frame).2.is_active = false) ∧
    (∀ (Frame H : Type) (cap : TrackerCap Frame H) (detector : Frame → List Detection)
        (frame : Frame) (s : MPTState H),
      ∀ e ∈ (processFrame cap detector frame s).1.tracked_persons,
        e.2.is_active = true) ∧
    (∀ (Frame H : Type) (cap : TrackerCap Frame H) (detector : Frame → List Detection)
        (frame : Frame) (s : MPTState H),
      (∀ e ∈ s.tracked_persons, e.2.is_active = true) →
      (s.tracked_persons.map (·.1)).Nodup →
      (∀ k ∈ s.tracked_persons.map (·.1), k < s.next_id) →
      ∀ r ∈ (processFrame cap detector frame s).2,
        ∃ e ∈ (processFrame cap detector frame s).1.tracked_persons, e.1 = r.1) := by
  refine ⟨?_, ?_, ?_⟩
  · intro Frame H cap p frame hf hl
    exact update_fail_deactivates cap p frame hf hl
  · intro Frame H cap detector frame s
    simp only [processFrame]
    exact cleanup_all_active _
  · intro Frame H cap detector frame s hact hnodup hlt
    simp only [processFrame]
    by_cases hny : need_yolo { s with frame_count := s.frame_count + 1 } = true
    · rw [if_pos hny]
      exact yoloPath_results cap detector frame _ hact hnodup hlt
    · rw [if_neg hny]
      exact trackersPath_results cap frame _ hnodup

/-- A concrete track on the verge of termination. -/
def lostPerson : TrackedPerson Unit := { dummyPerson with lost_frames := 10 }

/-- C4 witness: the three parts at concrete inputs — an 11th failure
deactivates; the post-frame live set is all-active; and the result
entries of a concrete frame refer to live tracks. -/
theorem C4_lifecycle_cleanup_witness :
    ((lostPerson.update_with_tracker rejectCap 0).2.is_active = false) ∧
    (∀ e ∈ (processFrame steadyCap stubDetector 0
        (MPTState.init 30 (3 / 10))).1.tracked_persons, e.2.is_active = true) ∧
    (∀ r ∈ (processFrame steadyCap stubDetector 0
        { (MPTState.init 30 (3 / 10) : MPTState Unit) with
          frame_count := 1
          tracked_persons := [(1, dummyPerson)]
          next_id := 2 }).2,
      ∃ e ∈ (processFrame steadyCap stubDetector 0
        { (MPTState.init 30 (3 / 10) : MPTState Unit) with
          frame_count := 1
          tracked_persons := [(1, dummyPerson)]
          next_id := 2 }).1.tracked_persons, e.1 = r.1) :=
  ⟨C4_lifecycle_cleanup.1 Nat Unit rejectCap lostPerson 0 (by decide) (by decide),
   C4_lifecycle_cleanup.2.1 Nat Unit steadyCap stubDetector 0 (MPTState.init 30 (3 / 10)),
   C4_lifecycle_cleanup.2.2 Nat Unit steadyCap stubDetector 0
    { (MPTState.init 30 (3 / 10) : MPTState Unit) with
      frame_count := 1
      tracked_persons := [(1, dummyPerson)]
      next_id := 2 } (by decide) (by decide) (by decide)⟩

/-! ## Frame pipeline (`VideoProcessor.process_video`, video_processor.py)

The video source is a list of frames; `cap.read()` returning no frame
is the end of the list.  The `should_stop` latch is a mutable flag that
a concurrent `stop()` call may set at any time; it is modelled by the
observation schedule `stop : Nat → Bool` giving the value the loop reads
at the start of iteration `iter` (iterations counted from 0).  Rendering
(`_draw_results`), the sink writes and the callbacks do not affect the
statistics or the tracker state and carry no state of their own here;
`avg_fps` is wall-clock-derived and outside the embedding. -/

/-- The running statistics dict of `VideoProcessor` (minus `avg_fps`). -/
structure Stats where
  total_frames : Nat
  yolo_frames : Nat
  tracker_frames : Nat
  total_persons : Nat
deriving DecidableEq, Repr

/-- The statistics as reset at the start of `process_video`. -/
def Stats.init : Stats :=
  { total_frames := 0, yolo_frames := 0, tracker_frames := 0, total_persons := 0 }

/-- The per-frame statistics update (video_processor.py lines 104-109):
count the `"yolo"` and `"tracker"` provenances in this frame's results,
bump `yolo_frames` if any `"yolo"` entry exists, else bump
`tracker_frames` if any `"tracker"` entry exists, and set
`total_persons = next_id - 1`. -/
def updateStats (stats : Stats) (results : List ResultEntry) (next_id : Nat) : Stats :=
  let yolo_count := (results.filter fun r => r.2.2.2 == "yolo").length
  let tracker_count := (results.filter fun r => r.2.2.2 == "tracker").length
  { stats with
    yolo_frames := stats.yolo_frames + (if yolo_count > 0 then 1 else 0)
    tracker_frames := stats.tracker_frames +
      (if tracker_count > 0 ∧ yolo_count = 0 then 1 else 0)
    total_persons := next_id - 1 }

/-- The outcome of a `process_video` run: the returned statistics, the
final tracker state, and the release flags set by the `finally` block
(lines 126-130). -/
structure RunResult (H : Type) where
  stats : Stats
  tracker : MPTState H
  sourceReleased : Bool
  sinkReleased : Bool

/-- The main loop of `process_video` (lines 88-124): each iteration
first consults `should_stop`, then reads a frame (end of stream breaks),
increments the raw `frame_count`, applies frame skipping, and for a
retained frame bumps `total_frames`, runs the tracker and folds the
results into the statistics. -/
def processLoop (cap : TrackerCap Frame H) (detector : Frame → List Detection)
    (stop : Nat → Bool) (skip_frames : Nat) :
    List Frame → Nat → Nat → MPTState H → Stats → MPTState H × Stats
  | [], _, _, s, stats => (s, stats)
  | f :: rest, iter, frame_count, s, stats =>
    if stop iter then (s, stats)
    else
      let frame_count := frame_count + 1
      if skip_frames > 0 ∧ (frame_count - 1) % (skip_frames + 1) ≠ 0 then
        processLoop cap detector stop skip_frames rest (iter + 1) frame_count s stats
      else
        let stats1 := { stats with total_frames := stats.total_frames + 1 }
        let pr := processFrame cap detector f s
        let stats2 := updateStats stats1 pr.2 pr.1.next_id
        processLoop cap detector stop skip_frames rest (iter + 1) frame_count pr.1 stats2

/-- `VideoProcessor.process_video` (lines 53-132): reset the tracker
and the statistics, fail with the `ValueError` (`SourceOpenError`) when
the source cannot be opened, otherwise run the loop; the `finally`
block releases source and sink on every exit from the loop. -/
def process_video (cap : TrackerCap Frame H) (detector : Frame → List Detection)
    (opened : Bool) (stop : Nat → Bool) (frames : List Frame) (skip_frames : Nat)
    (s0 : MPTState H) : Except String (RunResult H) :=
  let s := s0.reset
  if !opened then Except.error "SourceOpenError"
  else
    let r := processLoop cap detector stop skip_frames frames 0 0 s Stats.init
    Except.ok
      { stats := r.2, tracker := r.1, sourceReleased := true, sinkReleased := true }

lemma filter_method_pos (results : List ResultEntry) (m : String) :
    0 < (results.filter fun r => r.2.2.2 == m).length ↔ ∃ r ∈ results, r.2.2.2 = m := by
  rw [List.length_pos_iff_exists_mem]
  constructor
  · rintro ⟨r, hr⟩
    rcases List.mem_filter.mp hr with ⟨hm, hb⟩
    exact ⟨r, hm, by simpa using hb⟩
  · rintro ⟨r, hm, hb⟩
    exact ⟨r, List.mem_filter.mpr ⟨hm, by simpa using hb⟩⟩

/-- C8: the per-frame statistics step leaves the processed-frame count
to the loop (which bumps it once per retained frame — third conjunct),
bumps `yolo_frames` iff some entry has `"yolo"` provenance, otherwise
bumps `tracker_frames` iff some entry has `"tracker"` provenance, bumps
neither on an empty result list, and sets `total_persons = next_id - 1`
— which under the identity invariant is the highest id ever issued
(every issued id is `≤ next_id - 1`, and `next_id - 1` itself was
issued whenever any id was). -/
theorem C8_statistics_update :
    (∀ (stats : Stats) (results : List ResultEntry) (next_id : Nat),
      (updateStats stats results next_id).total_frames = stats.total_frames ∧
      ((updateStats stats results next_id).yolo_frames
        = if ∃ r ∈ results, r.2.2.2 = "yolo" then stats.yolo_frames + 1
          else stats.yolo_frames) ∧
      ((updateStats stats results next_id).tracker_frames
        = if (¬ ∃ r ∈ results, r.2.2.2 = "yolo") ∧ (∃ r ∈ results, r.2.2.2 = "tracker")
          then stats.tracker_frames + 1 else stats.tracker_frames) ∧
      (results = [] → (updateStats stats results next_id).yolo_frames = stats.yolo_frames ∧
        (updateStats stats results next_id).tracker_frames = stats.tracker_frames) ∧
      (updateStats stats results next_id).total_persons = next_id - 1) ∧
    (∀ (Frame H : Type) (cap : TrackerCap Frame H) (detector : Frame → List Detection)
        (frames : List Frame) (iter fc : Nat) (s : MPTState H) (stats : Stats),
      (processLoop cap detector (fun _ => false) 0 frames iter fc s stats).2.total_frames
        = stats.total_frames + frames.length) ∧
    (∀ (H : Type) (s : MPTState H),
      s.created_ids = List.range' 1 (s.next_id - 1) →
      (∀ i ∈ s.created_ids, i ≤ s.next_id - 1) ∧
      (s.created_ids ≠ [] → s.next_id - 1 ∈ s.created_ids)) := by
  refine ⟨?_, ?_, ?_⟩
  · intro stats results next_id
    have hy := filter_method_pos results "yolo"
    have ht := filter_method_pos results "tracker"
    refine ⟨rfl, ?_, ?_, ?_, rfl⟩
    · simp only [updateStats, gt_iff_lt]
      by_cases he1 : ∃ r ∈ results, r.2.2.2 = "yolo"
      · rw [if_pos (hy.mpr he1), if_pos he1]
      · have hL : ¬ 0 < (results.filter fun r => r.2.2.2 == "yolo").length :=
          fun hc => he1 (hy.mp hc)
        rw [if_neg hL, if_neg he1]
        omega
    · simp only [updateStats, gt_iff_lt]
      by_cases he1 : ∃ r ∈ results, r.2.2.2 = "yolo" <;>
        by_cases he2 : ∃ r ∈ results, r.2.2.2 = "tracker"
      · have hpos := hy.mpr he1
        have hL : ¬ (0 < (results.filter fun r => r.2.2.2 == "tracker").length ∧
            (results.filter fun r => r.2.2.2 == "yolo").length = 0) := fun hc => by omega
        rw [if_neg hL, if_neg (fun hc =>
          hc.1 he1 : ¬ ((¬ ∃ r ∈ results, r.2.2.2 = "yolo") ∧
            ∃ r ∈ results, r.2.2.2 = "tracker"))]
        omega
      · have hpos := hy.mpr he1
        have hL : ¬ (0 < (results.filter fun r => r.2.2.2 == "tracker").length ∧
            (results.filter fun r => r.2.2.2 == "yolo").length = 0) := fun hc => by omega
        rw [if_neg hL, if_neg (fun hc =>
          hc.1 he1 : ¬ ((¬ ∃ r ∈ results, r.2.2.2 = "yolo") ∧
            ∃ r ∈ results, r.2.2.2 = "tracker"))]
        omega
      · have hnp : ¬ 0 < (results.filter fun r => r.2.2.2 == "yolo").length :=
          fun hc => he1 (hy.mp hc)
        have hy0 : (results.filter fun r => r.2.2.2 == "yolo").length = 0 := by omega
        rw [if_pos ⟨ht.mpr he2, hy0⟩, if_pos ⟨he1, he2⟩]
      · have hL : ¬ (0 < (results.filter fun r => r.2.2.2 == "tracker").length ∧
            (results.filter fun r => r.2.2.2 == "yolo").length = 0) :=
          fun hc => he2 (ht.mp hc.1)
        rw [if_neg hL, if_neg (fun hc =>
          he2 hc.2 : ¬ ((¬ ∃ r ∈ results, r.2.2.2 = "yolo") ∧
            ∃ r ∈ results, r.2.2.2 = "tracker"))]
        omega
    · rintro rfl
      exact ⟨rfl, rfl⟩
  · intro Frame H cap detector frames
    induction frames with
    | nil =>
      intro iter fc s stats
      simp [processLoop]
    | cons f rest ih =>
      intro iter fc s stats
      rw [show processLoop cap detector (fun _ => false) 0 (f :: rest) iter fc s stats
          = processLoop cap detector (fun _ => false) 0 rest (iter + 1) (fc + 1)
              (processFrame cap detector f s).1
              (updateStats { stats with total_frames := stats.total_frames + 1 }
                (processFrame cap detector f s).2
                (processFrame cap detector f s).1.next_id) by
        simp [processLoop]]
      rw [ih]
      show stats.total_frames + 1 + rest.length = stats.total_frames + (rest.length + 1)
      omega
  · intro H s h
    rw [h]
    constructor
    · intro i hi
      have := (List.mem_range'_1.mp hi).2
      omega
    · intro hne
      have hn : s.next_id - 1 ≠ 0 := by
        intro hc
        rw [hc] at hne
        simp at hne
      exact List.mem_range'_1.mpr ⟨by omega, by omega⟩

/-- C8 witness: the statistics step at concrete inputs. -/
theorem C8_statistics_update_witness :
    (updateStats Stats.init [(1, ⟨0, 0, 5, 5⟩, 1, "yolo")] 2).total_frames
        = Stats.init.total_frames ∧
    ((updateStats Stats.init [(1, ⟨0, 0, 5, 5⟩, 1, "yolo")] 2).yolo_frames
      = if ∃ r ∈ [((1, ⟨0, 0, 5, 5⟩, 1, "yolo") : ResultEntry)], r.2.2.2 = "yolo"
        then Stats.init.yolo_frames + 1 else Stats.init.yolo_frames) ∧
    ((updateStats Stats.init [] 3).yolo_frames = Stats.init.yolo_frames ∧
      (updateStats Stats.init [] 3).tracker_frames = Stats.init.tracker_frames) ∧
    ((∀ i ∈ ({ MPTState.init 30 (3 / 10) with
        next_id := 3
        created_ids := [1, 2] } : MPTState Unit).created_ids, i ≤ 3 - 1)) :=
  ⟨(C8_statistics_update.1 Stats.init [(1, ⟨0, 0, 5, 5⟩, 1, "yolo")] 2).1,
   (C8_statistics_update.1 Stats.init [(1, ⟨0, 0, 5, 5⟩, 1, "yolo")] 2).2.1,
   (C8_statistics_update.1 Stats.init [] 3).2.2.2.1 rfl,
   (C8_statistics_update.2.2 Unit { MPTState.init 30 (3 / 10) with
      next_id := 3
      created_ids := [1, 2] } (by decide)).1⟩

lemma processLoop_stopAfter (cap : TrackerCap Frame H) (detector : Frame → List Detection)
    (k : Nat) :
    ∀ (frames : List Frame) (iter fc : Nat) (s : MPTState H) (stats : Stats),
      iter ≤ k → k ≤ iter + frames.length →
      (processLoop cap detector (fun i => decide (k ≤ i)) 0 frames iter fc
        s stats).2.total_frames = stats.total_frames + (k - iter) := by
  intro frames
  induction frames with
  | nil =>
    intro iter fc s stats h1 h2
    have hk : k = iter := by
      have : k ≤ iter := by simpa using h2
      omega
    subst hk
    simp [processLoop]
  | cons f rest ih =>
    intro iter fc s stats h1 h2
    by_cases hik : k ≤ iter
    · have hk : k = iter := le_antisymm hik h1
      subst hk
      rw [show processLoop cap detector (fun i => decide (k ≤ i)) 0 (f :: rest) k fc s stats
          = (s, stats) from by simp [processLoop]]
      simp
    · rw [show processLoop cap detector (fun i => decide (k ≤ i)) 0 (f :: rest) iter fc s stats
          = processLoop cap detector (fun i => decide (k ≤ i)) 0 rest (iter + 1) (fc + 1)
              (processFrame cap detector f s).1
              (updateStats { stats with total_frames := stats.total_frames + 1 }
                (processFrame cap detector f s).2
                (processFrame cap detector f s).1.next_id) from by
        simp [processLoop, hik]]
      have hlen : (f :: rest).length = rest.length + 1 := List.length_cons f rest
      rw [ih (iter + 1) (fc + 1) _ _ (by omega) (by omega)]
      show stats.total_frames + 1 + (k - (iter + 1)) = stats.total_frames + (k - iter)
      omega

/-- C9: with the source opened, a stop signal first observed at loop
iteration `k` (set from any context after `k` frames were read) makes
`process_video` return normally — `Except.ok`, not an error — with
`total_frames = k` and both handles released; an unopened source is the
distinct `SourceOpenError` failure path. -/
theorem C9_stop_cancellation :
    (∀ (Frame H : Type) (cap : TrackerCap Frame H) (detector : Frame → List Detection)
        (frames : List Frame) (k : Nat) (s0 : MPTState H),
      k ≤ frames.length →
      ∃ res : RunResult H,
        process_video cap detector true (fun i => decide (k ≤ i)) frames 0 s0
          = Except.ok res ∧
        res.stats.total_frames = k ∧
        res.sourceReleased = true ∧ res.sinkReleased = true) ∧
    (∀ (Frame H : Type) (cap : TrackerCap Frame H) (detector : Frame → List Detection)
        (stop : Nat → Bool) (frames : List Frame) (skip_frames : Nat) (s0 : MPTState H),
      process_video cap detector false stop frames skip_frames s0
        = Except.error "SourceOpenError") := by
  constructor
  · intro Frame H cap detector frames k s0 hk
    refine ⟨⟨(processLoop cap detector (fun i => decide (k ≤ i)) 0 frames 0 0
          s0.reset Stats.init).2,
        (processLoop cap detector (fun i => decide (k ≤ i)) 0 frames 0 0
          s0.reset Stats.init).1,
        true, true⟩, rfl, ?_, rfl, rfl⟩
    have h := processLoop_stopAfter cap detector k frames 0 0 s0.reset Stats.init
      (by omega) (by omega)
    simpa [Stats.init] using h
  · intro Frame H cap detector stop frames skip_frames s0
    rfl

/-- C9 witness: stop observed at iteration 5 of a 20-frame source gives
a normal return with 5 processed frames; a closed source errors. -/
theorem C9_stop_cancellation_witness :
    (∃ res : RunResult Unit,
      process_video steadyCap stubDetector true (fun i => decide (5 ≤ i))
          (List.range 20) 0 (MPTState.init 30 (3 / 10))
        = Except.ok res ∧
      res.stats.total_frames = 5 ∧
      res.sourceReleased = true ∧ res.sinkReleased = true) ∧
    process_video steadyCap stubDetector false (fun _ => false) (List.range 20) 0
        (MPTState.init 30 (3 / 10))
      = Except.error "SourceOpenError" :=
  ⟨C9_stop_cancellation.1 Nat Unit steadyCap stubDetector (List.range 20) 5
      (MPTState.init 30 (3 / 10)) (by simp),
   C9_stop_cancellation.2 Nat Unit steadyCap stubDetector (fun _ => false)
      (List.range 20) 0 (MPTState.init 30 (3 / 10))⟩

/-! ### Identity allocation (C10) -/

/-- The identity invariant: the ids ever issued since the last reset
are exactly `1, 2, …, next_id - 1`, in order. -/
def goodIds (s : MPTState H) : Prop :=
  s.created_ids = List.range' 1 (s.next_id - 1) ∧ 1 ≤ s.next_id

lemma yoloTail_ids (cap : TrackerCap Frame H) (frame : Frame) (s : MPTState H)
    (dets : List (Nat × Detection)) (A : MatchAcc H) (c : CreateAcc H)
    (hc : c = dets.foldl (createStep cap frame A.matched_det_indices)
      ⟨A.persons, s.next_id, s.created_ids, A.results⟩) :
    ∃ n, c.next_id = s.next_id + n ∧
      c.created_ids = s.created_ids ++ List.range' s.next_id n := by
  obtain ⟨news, hcp, hknews, hcn, hccr, _, _⟩ :=
    createFold_inv cap frame A.matched_det_indices dets
      ⟨A.persons, s.next_id, s.created_ids, A.results⟩
  dsimp only at hknews hcn hccr
  rw [← hc] at hcn hccr
  exact ⟨news.length, hcn, by rw [hccr, hknews]⟩

lemma processWithYolo_ids (cap : TrackerCap Frame H) (detector : Frame → List Detection)
    (frame : Frame) (s : MPTState H) :
    ∃ n, (processWithYolo cap detector frame s).1.next_id = s.next_id + n ∧
      (processWithYolo cap detector frame s).1.created_ids
        = s.created_ids ++ List.range' s.next_id n := by
  by_cases hdet : (detector frame).isEmpty = true
  · refine ⟨0, ?_, ?_⟩ <;> simp [processWithYolo, hdet, processWithTrackers_eq]
  · rw [Bool.not_eq_true] at hdet
    simp only [processWithYolo, hdet, Bool.false_eq_true, if_false]
    by_cases hpe : s.tracked_persons.isEmpty = true
    · simp only [hpe, if_true]
      obtain ⟨n, h1, h2⟩ := yoloTail_ids cap frame s (detector frame).enum
        ⟨s.tracked_persons, [], [], []⟩ _ rfl
      exact ⟨n, h1, h2⟩
    · rw [Bool.not_eq_true] at hpe
      simp only [hpe, Bool.false_eq_true, if_false]
      obtain ⟨n, h1, h2⟩ := yoloTail_ids cap frame s (detector frame).enum
        ((detector frame).enum.foldl (matchStep cap s.iou_threshold frame)
          ⟨s.tracked_persons, [], [], []⟩) _ rfl
      exact ⟨n, h1, h2⟩

lemma processFrame_ids (cap : TrackerCap Frame H) (detector : Frame → List Detection)
    (frame : Frame) (s : MPTState H) :
    ∃ n, (processFrame cap detector frame s).1.next_id = s.next_id + n ∧
      (processFrame cap detector frame s).1.created_ids
        = s.created_ids ++ List.range' s.next_id n := by
  simp only [processFrame]
  by_cases hny : need_yolo { s with frame_count := s.frame_count + 1 } = true
  · rw [if_pos hny]
    obtain ⟨n, h1, h2⟩ := processWithYolo_ids cap detector frame
      { s with frame_count := s.frame_count + 1 }
    exact ⟨n, h1, h2⟩
  · rw [if_neg hny]
    exact ⟨0, rfl, by simp [processWithTrackers_eq, cleanupInactive]⟩

lemma goodIds_step (cap : TrackerCap Frame H) (detector : Frame → List Detection)
    (frame : Frame) (s : MPTState H) (h : goodIds s) :
    goodIds (processFrame cap detector frame s).1 := by
  obtain ⟨n, h1, h2⟩ := processFrame_ids cap detector frame s
  obtain ⟨hcr, hge⟩ := h
  constructor
  · rw [h2, hcr, h1]
    obtain ⟨m, hm⟩ : ∃ m, s.next_id = 1 + m := ⟨s.next_id - 1, by omega⟩
    rw [hm]
    rw [show 1 + m - 1 = m from by omega, show 1 + m + n - 1 = n + m from by omega]
    exact List.range'_append_1 1 m n
  · omega

lemma goodIds_reset (s : MPTState H) : goodIds s.reset := by
  constructor
  · show ([] : List Nat) = List.range' 1 (1 - 1)
    simp
  · show 1 ≤ 1
    omega

lemma runFrames_goodIds (cap : TrackerCap Frame H) (detector : Frame → List Detection) :
    ∀ (frames : List Frame) (s : MPTState H), goodIds s →
      goodIds (runFrames cap detector frames s) := by
  intro frames
  induction frames with
  | nil => intro s h; exact h
  | cons f rest ih =>
    intro s h
    exact ih _ (goodIds_step cap detector f s h)

lemma processLoop_goodIds (cap : TrackerCap Frame H) (detector : Frame → List Detection)
    (stop : Nat → Bool) (skip_frames : Nat) :
    ∀ (frames : List Frame) (iter fc : Nat) (s : MPTState H) (stats : Stats),
      goodIds s → stats.total_persons = s.next_id - 1 →
      goodIds (processLoop cap detector stop skip_frames frames iter fc s stats).1 ∧
      (processLoop cap detector stop skip_frames frames iter fc s stats).2.total_persons
        = (processLoop cap detector stop skip_frames frames iter fc s stats).1.next_id - 1 := by
  intro frames
  induction frames with
  | nil =>
    intro iter fc s stats hg hp
    exact ⟨hg, hp⟩
  | cons f rest ih =>
    intro iter fc s stats hg hp
    by_cases hstop : stop iter = true
    · rw [show processLoop cap detector stop skip_frames (f :: rest) iter fc s stats
          = (s, stats) from by simp [processLoop, hstop]]
      exact ⟨hg, hp⟩
    · by_cases hskip : skip_frames > 0 ∧ (fc + 1 - 1) % (skip_frames + 1) ≠ 0
      · have heq : processLoop cap detector stop skip_frames (f :: rest) iter fc s stats
            = processLoop cap detector stop skip_frames rest (iter + 1) (fc + 1) s stats := by
          rw [processLoop, if_neg hstop]
          show (if skip_frames > 0 ∧ (fc + 1 - 1) % (skip_frames + 1) ≠ 0 then _ else _) = _
          rw [if_pos hskip]
        rw [heq]
        exact ih (iter + 1) (fc + 1) s stats hg hp
      · have heq : processLoop cap detector stop skip_frames (f :: rest) iter fc s stats
            = processLoop cap detector stop skip_frames rest (iter + 1) (fc + 1)
                (processFrame cap detector f s).1
                (updateStats { stats with total_frames := stats.total_frames + 1 }
                  (processFrame cap detector f s).2
                  (processFrame cap detector f s).1.next_id) := by
          rw [processLoop, if_neg hstop]
          show (if skip_frames > 0 ∧ (fc + 1 - 1) % (skip_frames + 1) ≠ 0 then _ else _) = _
          rw [if_neg hskip]
        rw [heq]
        exact ih (iter + 1) (fc + 1) _ _ (goodIds_step cap detector f s hg) rfl

/-- C10: from a reset state, every run issues ids `1, 2, 3, …` in
creation order — the ghost creation log is exactly
`range' 1 (next_id - 1)`, so `next_id` is always one more than the
number of Tracks ever created and the `k`-th Track created got id
`k + 1` (1-based: id `k`); and the pipeline's `total_persons` statistic
equals the count of Tracks ever created in the run. -/
theorem C10_identity_sequence :
    (∀ (Frame H : Type) (cap : TrackerCap Frame H) (detector : Frame → List Detection)
        (frames : List Frame) (s : MPTState H),
      (runFrames cap detector frames s.reset).created_ids
        = List.range' 1 ((runFrames cap detector frames s.reset).next_id - 1) ∧
      (runFrames cap detector frames s.reset).next_id
        = 1 + (runFrames cap detector frames s.reset).created_ids.length ∧
      ∀ (k : Nat) (hk : k < (runFrames cap detector frames s.reset).created_ids.length),
        (runFrames cap detector frames s.reset).created_ids.get ⟨k, hk⟩ = 1 + k) ∧
    (∀ (Frame H : Type) (cap : TrackerCap Frame H) (detector : Frame → List Detection)
        (stop : Nat → Bool) (frames : List Frame) (skip_frames : Nat) (s0 : MPTState H)
        (res : RunResult H),
      process_video cap detector true stop frames skip_frames s0 = Except.ok res →
      res.stats.total_persons = res.tracker.created_ids.length ∧
      res.tracker.next_id = 1 + res.tracker.created_ids.length) := by
  constructor
  · intro Frame H cap detector frames s
    obtain ⟨hcr, hge⟩ := runFrames_goodIds cap detector frames s.reset (goodIds_reset s)
    refine ⟨hcr, ?_, ?_⟩
    · rw [hcr, List.length_range']
      omega
    · intro k hk
      have hk2 : k < (List.range' 1 ((runFrames cap detector frames s.reset).next_id - 1)).length := by
        rw [← hcr]
        exact hk
      rw [List.get_of_eq hcr ⟨k, hk⟩]
      simp
  · intro Frame H cap detector stop frames skip_frames s0 res hok
    have hok2 : Except.ok
        { stats := (processLoop cap detector stop skip_frames frames 0 0
            s0.reset Stats.init).2
          tracker := (processLoop cap detector stop skip_frames frames 0 0
            s0.reset Stats.init).1
          sourceReleased := true
          sinkReleased := true } = Except.ok res := hok
    have hres := Except.ok.inj hok2
    obtain ⟨hg, hp⟩ := processLoop_goodIds cap detector stop skip_frames frames 0 0
      s0.reset Stats.init (goodIds_reset s0) rfl
    obtain ⟨hcr, hge⟩ := hg
    constructor
    · rw [← hres]
      show (processLoop cap detector stop skip_frames frames 0 0
          s0.reset Stats.init).2.total_persons = _
      rw [hp, hcr, List.length_range']
    · rw [← hres]
      show (processLoop cap detector stop skip_frames frames 0 0
          s0.reset Stats.init).1.next_id = _
      rw [hcr, List.length_range']
      omega

/-- C10 witness: a concrete 5-frame run from reset issues the id list
`range' 1 (next_id - 1)`, and a concrete pipeline run reports
`total_persons` equal to the number of created Tracks. -/
theorem C10_identity_sequence_witness :
    ((runFrames steadyCap stubDetector (List.range 5)
        ((MPTState.init 30 (3 / 10) : MPTState Unit).reset)).created_ids
      = List.range' 1 ((runFrames steadyCap stubDetector (List.range 5)
        ((MPTState.init 30 (3 / 10) : MPTState Unit).reset)).next_id - 1)) ∧
    ((⟨(processLoop steadyCap stubDetector (fun _ => false) 0 (List.range 5) 0 0
            (MPTState.init 30 (3 / 10) : MPTState Unit).reset Stats.init).2,
        (processLoop steadyCap stubDetector (fun _ => false) 0 (List.range 5) 0 0
            (MPTState.init 30 (3 / 10) : MPTState Unit).reset Stats.init).1,
        true, true⟩ : RunResult Unit).stats.total_persons
      = (⟨(processLoop steadyCap stubDetector (fun _ => false) 0 (List.range 5) 0 0
            (MPTState.init 30 (3 / 10) : MPTState Unit).reset Stats.init).2,
        (processLoop steadyCap stubDetector (fun _ => false) 0 (List.range 5) 0 0
            (MPTState.init 30 (3 / 10) : MPTState Unit).reset Stats.init).1,
        true, true⟩ : RunResult Unit).tracker.created_ids.length) :=
  ⟨(C10_identity_sequence.1 Nat Unit steadyCap stubDetector (List.range 5)
      (MPTState.init 30 (3 / 10))).1,
   (C10_identity_sequence.2 Nat Unit steadyCap stubDetector (fun _ => false)
      (List.range 5) 0 (MPTState.init 30 (3 / 10)) _ rfl).1⟩

end VideoCut
